import Mathlib

/- Shallow embedding of the clld toolkit sources (clld/web/app.py,
   clld/lib/excel.py).  Pure registry state (routes, views, utilities,
   adapters, settings, translation dirs) is threaded explicitly through a
   `Config` record; Pyramid route patterns are compiled to token lists and
   matched by an executable matcher; SQLAlchemy queries are executed against
   an explicit in-memory database (a list of records per model). -/

/-- Lowercase ASCII letter test; used for the path-prefix stripping hack in
ClldRequest.ctx_for_url (`re.sub('^\/[a-z]+', '', path)`). -/
def isLowerAlpha (c : Char) : Bool := 'a' ≤ c && c ≤ 'z'

/-- First-match association lookup, modelling Python dict lookup (dicts are
modelled as association lists whose first binding for a key is current). -/
def lookupAssoc {α : Type} : List (String × α) → String → Option α
  | [], _ => none
  | (k, v) :: rest, q => if k = q then some v else lookupAssoc rest q

/-- Python str.endswith, on the underlying character lists. -/
def strEndsWith (s suf : String) : Bool := suf.data.isSuffixOf s.data

/-- The SQLAlchemy model classes that clld/web/app.py distinguishes by
identity (common.Dataset, common.Contribution, common.ValueSet); all other
model classes are `other s`. -/
inductive ModelT : Type
  | Dataset : ModelT
  | Contribution : ModelT
  | ValueSet : ModelT
  | Language : ModelT
  | Parameter : ModelT
  | other : String → ModelT
deriving DecidableEq, Repr

/-- A Python class as it appears in the component registry: its name, its
`mimetype` attribute and the interfaces it implements (zope
`implementedBy`, in declaration order). -/
structure Cls : Type where
  name : String
  mimetype : String
  implements : List String
deriving DecidableEq, Repr

/-- A database record: its `id` column, the model it belongs to and the
interface it provides (zope `providedBy`). -/
structure Rec : Type where
  id : String
  model : ModelT
  interface : String
deriving DecidableEq, Repr

/-- An entry of the RESOURCES list (clld.Resource): name, model, interface
and the with_index capability marker. -/
structure Res : Type where
  name : String
  model : ModelT
  interface : String
  with_index : Bool
deriving DecidableEq, Repr

/-- The request data ctx_factory and CtxFactoryQuery consult: the matchdict
of the matched route and the matched route's name. -/
structure Req : Type where
  matchdict : List (String × String)
  matchedRouteName : String
deriving DecidableEq, Repr

/-- Python exceptions raised by the embedded code paths. -/
inductive PyExc : Type
  | httpNotFound : PyExc
  | noResultFound : PyExc
  | multipleResultsFound : PyExc
  | componentLookupError : PyExc
  | keyError : PyExc
  | indexError : PyExc
deriving DecidableEq, Repr

/-- The database: the list of stored records of each model. -/
def DB : Type := ModelT → List Rec

/-- Modelled from the spec: `rsc.model.get(id, default=None)` (clld.db.meta
is outside src/); it looks up the record of the model with the given id,
returning the default None when there is none. -/
def dbGet (db : DB) (m : ModelT) (i : String) : Option Rec :=
  (db m).find? (fun r => r.id == i)

/-- SQLAlchemy `Query.one()` on the filtered row list: exactly one row is
returned; zero rows raise NoResultFound, several raise
MultipleResultsFound. -/
def listOne : List Rec → Except PyExc Rec
  | [] => Except.error PyExc.noResultFound
  | [r] => Except.ok r
  | _ :: _ :: _ => Except.error PyExc.multipleResultsFound

/-- A token of a compiled Pyramid route pattern: a literal character, or a
placeholder `star name noDot` standing for `\x7bname\x7d` (regex [^/]+,
noDot = false) or `\x7bname:[^/\.]+\x7d` (noDot = true).  These are the only
two placeholder forms occurring in the source. -/
inductive Tok : Type
  | lit : Char → Tok
  | star : String → Bool → Tok
deriving DecidableEq, Repr

/-- Character class of a placeholder: [^/]+ or [^/\.]+. -/
def charOk (noDot : Bool) (c : Char) : Bool :=
  if noDot then !(c == '/') && !(c == '.') else !(c == '/')

/-- Builds the placeholder token for a brace group's content: the part
before the ':' names the group, and the only explicit regex occurring in the
source, [^/\.]+, selects the no-slash-no-dot class (the default class is
[^/]+). -/
def mkStar (content : List Char) : Tok :=
  Tok.star (String.mk (content.takeWhile (fun d => !(d == ':'))))
    (content.dropWhile (fun d => !(d == ':')) == (":[^/\\.]+".data))

/-- Compiles a Pyramid route pattern (as a character list) to tokens, as a
scanner: outside a brace group (`inBrace = false`) characters are literal
and `\x7b` opens a group; inside a group characters accumulate until `\x7d`
closes it into a placeholder.  All patterns in scope are well formed (every
opened group is closed). -/
def compileSt : Bool → List Char → List Char → List Tok
  | false, _, [] => []
  | false, _, c :: rest =>
    if c = '\x7b' then compileSt true [] rest else Tok.lit c :: compileSt false [] rest
  | true, _, [] => []
  | true, acc, c :: rest =>
    if c = '\x7d' then mkStar acc :: compileSt false [] rest
    else compileSt true (acc ++ [c]) rest

/-- Compiles a route pattern string. -/
def compilePattern (s : String) : List Tok := compileSt false [] s.data

/-- Anchored greedy matching of a compiled pattern against a path (chars
first, recursion is structural on them): a placeholder consumes one
admissible character and then greedily continues before it settles, as
Pyramid's compiled route regex does. -/
def tokCaptAux : List Char → List Tok → Option (List (String × List Char))
  | [], [] => some []
  | [], _ :: _ => none
  | _ :: _, [] => none
  | d :: ds, Tok.lit c :: ts => if c = d then tokCaptAux ds ts else none
  | d :: ds, Tok.star n nd :: ts =>
    if charOk nd d then
      match tokCaptAux ds (Tok.star n nd :: ts) with
      | some ((n', v) :: m) => some ((n', d :: v) :: m)
      | _ =>
        match tokCaptAux ds ts with
        | some m => some ((n, [d]) :: m)
        | none => none
    else none

/-- Matches a compiled pattern against a path, returning the matchdict of
captured groups. -/
def tokCapt (ts : List Tok) (cs : List Char) : Option (List (String × List Char)) :=
  tokCaptAux cs ts

/-- Whether a matched pattern produced any captures; Pyramid's matchdict for
a capture-free pattern is the empty dict, which is falsy in Python. -/
def captNonempty (m : List (String × List Char)) : Bool := !m.isEmpty

/-- A registered route: name, pattern string and the context factory the
route was registered with (`partial(ctx_factory, model, type_)`), when
any. -/
structure RouteDef : Type where
  name : String
  pattern : String
  factory : Option (ModelT × String)
deriving DecidableEq, Repr

/-- Pyramid's routes mapper: routes are tried in registration order and the
first whose pattern matches the path wins. -/
def firstMatch : List RouteDef → List Char → Option (RouteDef × List (String × List Char))
  | [], _ => none
  | r :: rs, p =>
    match tokCapt (compilePattern r.pattern) p with
    | some m => some (r, m)
    | none => firstMatch rs p

/-- Pyramid route generation (`request.route_url`): placeholders are filled
from the keyword dict, a missing key raises (modelled as none); keywords
that name no placeholder are ignored. -/
def genPath : List Tok → List (String × String) → Option (List Char)
  | [], _ => some []
  | Tok.lit c :: ts, kw => (genPath ts kw).map (fun p => c :: p)
  | Tok.star n _ :: ts, kw =>
    match lookupAssoc kw n with
    | some v => (genPath ts kw).map (fun p => v.data ++ p)
    | none => none

/-- The registry and configurator state that clld/web/app.py manipulates.
`routePatterns` is the settings entry `settings['route_patterns']` (a dict,
kept apart from the string-valued settings); `utilities` models
`registry.registerUtility` (interface, name, class), newest first so that a
later registration for the same (interface, name) shadows an earlier one;
`adapters` models `registry.registerAdapter` entries
(class, from-interface, to-interface, name); `resources` is the RESOURCES
list.  External side effects of the source (database engine binding, favicon
file hashing, module imports, config.scan, clld.web.adapters / icon
registrations from modules outside src/) carry no registry state that the
claims touch and are not modelled. -/
structure Config : Type where
  settings : List (String × String)
  routePatterns : List (String × String)
  menuitemsListSetting : Option (List String)
  routes : List RouteDef
  views : List (String × String)
  utilities : List (String × String × Cls)
  adapters : List (Cls × String × String × String)
  translationDirs : List String
  staticViews : List String
  subscribers : List String
  resources : List Res
  menuItems : List String
deriving DecidableEq, Repr

/-- Registry utility lookup by interface and name. -/
def lookupUtil : List (String × String × Cls) → String → String → Option Cls
  | [], _, _ => none
  | (i, n, c) :: rest, i', n' =>
    if i = i' ∧ n = n' then some c else lookupUtil rest i' n'

/-- register_cls (clld/web/app.py:172-175): registers cls as a utility under
the route name, and also under name + '_alt' when the name does not already
end in '_alt'.  register_datatable and register_map are its partial
applications to IDataTable and IMap (clld/web/app.py:256-258). -/
def register_cls (interface : String) (cfg : Config) (route : String) (cls : Cls) : Config :=
  let cfg := { cfg with utilities := (interface, route, cls) :: cfg.utilities }
  if strEndsWith route "_alt" then cfg
  else { cfg with utilities := (interface, route ++ "_alt", cls) :: cfg.utilities }

/-- add_route_and_view (clld/web/app.py:302-316): the route pattern may be
overridden through settings['route_patterns']; the alternate route gets the
(possibly overridden) pattern + '.\x7bext\x7d' unless alt_route_pattern is given;
the view is attached to both routes and a factory keyword is handed to both
route registrations.  View keywords other than the route factory (renderer,
http_cache) configure rendering only and are not modelled. -/
def add_route_and_view (cfg : Config) (route_name route_pattern view : String)
    (factory : Option (ModelT × String)) (alt_route_pattern : Option String) : Config :=
  let rp := (lookupAssoc cfg.routePatterns route_name).getD route_pattern
  let alt := alt_route_pattern.getD (rp ++ ".\x7bext\x7d")
  { cfg with
    routes := cfg.routes ++ [⟨route_name, rp, factory⟩, ⟨route_name ++ "_alt", alt, factory⟩],
    views := cfg.views ++ [(route_name, view), (route_name ++ "_alt", view)] }

/-- register_adapter (clld/web/app.py:295-300): `to_ = to_ or
list(implementedBy(cls))[0]` (an interface is never falsy, so only None
falls back; an empty interface list raises IndexError) and `name = name or
cls.mimetype` (both None and the empty string are falsy and fall back). -/
def register_adapter (cfg : Config) (cls : Cls) (from_ : String)
    (to_ : Option String) (name : Option String) : Except PyExc Config :=
  match (match to_ with | some t => some t | none => cls.implements.head?) with
  | none => Except.error PyExc.indexError
  | some toV =>
    let nameV := match name with
      | some s => if s = "" then cls.mimetype else s
      | none => cls.mimetype
    Except.ok { cfg with adapters := (cls, from_, toV, nameV) :: cfg.adapters }

/-- Total wrapper for register_adapter at call sites whose adapter class has
a nonempty interface list, where the IndexError branch is unreachable (it
leaves the configuration unchanged here; Python would raise).  It never
touches routes, views or resources in either branch. -/
def registerAdapterD (cfg : Config) (cls : Cls) (from_ : String)
    (to_ : Option String) (name : Option String) : Config :=
  match register_adapter cfg cls from_ to_ name with
  | Except.ok c => c
  | Except.error _ => cfg

/-- Modelled from the spec: clld.web.adapters.excel.ExcelAdapter (the
clld.web.adapters package is outside src/); all that matters here is that it
is a registrable output-format adapter class with a mimetype and a nonempty
implemented-interface list. -/
def excelAdapterCls : Cls :=
  ⟨"ExcelAdapter", "application/vnd.ms-excel", ["IRepresentation"]⟩

/-- Modelled from the spec: `getattr(excel, plural.capitalize(),
excel.ExcelAdapter)` — the per-resource Excel adapter class of the external
clld.web.adapters.excel module. -/
def excelCls (plural : String) : Cls :=
  ⟨"excel." ++ plural.capitalize, "application/vnd.ms-excel", ["IRepresentation"]⟩

/-- Modelled from the spec: `getattr(datatables, plural.capitalize(),
DataTable)` — the per-resource datatable class of the external
clld.web.datatables module. -/
def datatableCls (plural : String) : Cls := ⟨"datatables." ++ plural.capitalize, "", []⟩

/-- register_resource (clld/web/app.py:278-293): appends to RESOURCES,
registers the generic Excel adapter for the interface, adds the singular
item route (with its format-extension variant) and, when with_index is set,
the plural index route (with its variant). -/
def register_resource (cfg : Config) (name : String) (model : ModelT)
    (interface : String) (with_index : Bool) : Config :=
  let cfg := { cfg with resources := cfg.resources ++ [⟨name, model, interface, with_index⟩] }
  let cfg := registerAdapterD cfg excelAdapterCls interface none none
  let cfg := add_route_and_view cfg name ("/" ++ name ++ "s/\x7bid:[^/\\.]+\x7d")
    "resource_view" (some (model, "rsc")) none
  if with_index then
    add_route_and_view cfg (name ++ "s") ("/" ++ name ++ "s")
      "index_view" (some (model, "index")) none
  else cfg

/-- An application package as register_app inspects it: its dotted name and
which conventional files or directories exist in its directory, plus the
parsed appconf.ini settings when present. -/
structure Pkg : Type where
  name : String
  hasAssets : Bool
  hasUtil : Bool
  hasLocale : Bool
  hasAppconf : Bool
  hasViews : Bool
  appconfSettings : List (String × String)
deriving DecidableEq, Repr

/-- menu_item driven default menu computation shared by both register_app
branches (clld/web/app.py:184, 218-224). -/
def defaultMenuitems (setting : Option (List String)) : List String :=
  "dataset" :: setting.getD ["contributions", "parameters", "languages", "contributors"]

/-- register_app (clld/web/app.py:178-224).  With no package only the clld
translation directory is registered (plus the default menu);  with a package,
the conventional locations are exploited: an assets.py or views module only
triggers imports/scans (no registry state), util.py adds a BeforeRender
subscriber, a locale directory adds the package's translation directory and
then clld's, appconf.ini settings are merged, and a static view is added. -/
def register_app (cfg : Config) (pkg : Option Pkg) : Config :=
  match pkg with
  | none =>
    let cfg := { cfg with translationDirs := cfg.translationDirs ++ ["clld:locale"] }
    { cfg with menuItems := ["dataset"] }
  | some p =>
    let cfg := if p.hasUtil
      then { cfg with subscribers := cfg.subscribers ++ ["add_util"] } else cfg
    let cfg := if p.hasLocale
      then { cfg with translationDirs :=
              cfg.translationDirs ++ [p.name ++ ":locale", "clld:locale"] }
      else cfg
    let cfg := if p.hasAppconf
      then { cfg with settings := p.appconfSettings.reverse ++ cfg.settings } else cfg
    let cfg := { cfg with staticViews := cfg.staticViews ++ [p.name ++ ":static"] }
    { cfg with menuItems := defaultMenuitems cfg.menuitemsListSetting }

/-- The registry classes includeme registers as plain utilities. -/
def ctxFactoryQueryCls : Cls := ⟨"CtxFactoryQuery", "", ["ICtxFactoryQuery"]⟩

/-- OlacConfig utility class registered by includeme. -/
def olacConfigCls : Cls := ⟨"OlacConfig", "", ["IOlacConfig"]⟩

/-- Map widget class registered for the languages index. -/
def mapCls : Cls := ⟨"Map", "", ["IMap"]⟩

/-- Map widget class registered for the language item. -/
def languageMapCls : Cls := ⟨"LanguageMap", "", ["IMap"]⟩

/-- Map widget class registered for the parameter item. -/
def parameterMapCls : Cls := ⟨"ParameterMap", "", ["IMap"]⟩

/-- The fixed routes-and-views includeme sets up before the resource loop
(clld/web/app.py:323-336), in source order. -/
def addStaticRoutes (cfg : Config) : Config :=
  let cfg := add_route_and_view cfg "legal" "/legal" "legal_view" none none
  let cfg := add_route_and_view cfg "_js" "/_js" "js" none none
  let cfg := add_route_and_view cfg "_raise" "/_raise" "_raise_view" none none
  let cfg := add_route_and_view cfg "_ping" "/_ping" "_ping_view" none none
  let cfg := add_route_and_view cfg "robots" "/robots.txt" "robots" none none
  let cfg := add_route_and_view cfg "sitemapindex" "/sitemap.xml" "sitemapindex" none none
  let cfg := add_route_and_view cfg "sitemap" "/sitemap.\x7brsc\x7d.\x7bn\x7d.xml" "sitemap" none none
  let cfg := add_route_and_view cfg "unapi" "/unapi" "unapi" none none
  add_route_and_view cfg "olac" "/olac" "olac" none none

/-- The body of includeme's `for rsc in RESOURCES` loop
(clld/web/app.py:338-360): an index route, datatable and per-resource Excel
adapter for with_index resources, then the singular route, whose pattern is
'/' with alternate '/void.\x7bext\x7d' for the Dataset model and
'/<plural>/\x7bid:[^/\.]+\x7d' otherwise. -/
def addResource (cfg : Config) (r : Res) : Config :=
  let plural := r.name ++ "s"
  let cfg := if r.with_index then
      let cfg := add_route_and_view cfg plural ("/" ++ plural)
        "index_view" (some (r.model, "index")) none
      let cfg := register_cls "IDataTable" cfg plural (datatableCls plural)
      registerAdapterD cfg (excelCls plural) r.interface none none
    else cfg
  if r.model = ModelT.Dataset then
    add_route_and_view cfg r.name "/" "resource_view" (some (r.model, "rsc"))
      (some "/void.\x7bext\x7d")
  else
    add_route_and_view cfg r.name ("/" ++ plural ++ "/\x7bid:[^/\\.]+\x7d")
      "resource_view" (some (r.model, "rsc")) none

/-- includeme (clld/web/app.py:227-371), as far as it touches modelled
registry state, in source order: the CtxFactoryQuery and OlacConfig
utilities, the default locale and favicon settings (the favicon file's md5
is an input, `fh`), the event subscribers, the clld static view, the fixed
routes, the RESOURCES loop, and the three map registrations.  Request
factory installation, database engine binding, directive installation and
the registrations performed by modules outside src/ (clld.web.adapters,
icons, MapMarker) leave the modelled state unchanged.  includemeBase is the
part before the fixed routes: utilities, settings (the default locale, then
the favicon default for settings that lack one, then the favicon hash),
subscribers and the clld static view; the successive updates of the source
are combined into one record update per field, preserving order within each
field. -/
def faviconSettings (s : List (String × String)) : List (String × String) :=
  if (lookupAssoc s "clld.favicon").isNone
  then ("clld.favicon", "clld:web/static/images/favicon.ico") :: s
  else s

def includemeBase (fh : String) (cfg : Config) : Config :=
  { cfg with
    utilities :=
      ("IOlacConfig", "", olacConfigCls) :: ("ICtxFactoryQuery", "", ctxFactoryQueryCls)
        :: cfg.utilities,
    settings :=
      ("clld.favicon_hash", fh) ::
        faviconSettings (("pyramid.default_locale_name", "en") :: cfg.settings),
    subscribers := cfg.subscribers ++ ["add_localizer", "add_renderer_globals", "init_map"],
    staticViews := cfg.staticViews ++ ["clld-static"] }

/-- The three map registrations at the end of includeme
(clld/web/app.py:363-365). -/
def includemeMaps (cfg : Config) : Config :=
  let cfg := register_cls "IMap" cfg "languages" mapCls
  let cfg := register_cls "IMap" cfg "language" languageMapCls
  register_cls "IMap" cfg "parameter" parameterMapCls

/-- includeme (clld/web/app.py:227-371): the base registrations, the fixed
routes and views, the RESOURCES loop, and the map registrations, in source
order. -/
def includeme (fh : String) (cfg : Config) : Config :=
  let cfg := includemeBase fh cfg
  let cfg := addStaticRoutes cfg
  let cfg := cfg.resources.foldl addResource cfg
  includemeMaps cfg

/-- A SQLAlchemy query as CtxFactoryQuery builds and inspects it: the
queried model, the id filter, the accumulated eager-loading options, and an
object-identity surrogate `oid` — Python's `query == custom_query` compares
Query objects by identity, so a refined_query override that builds a new
object is modelled by a query value differing at least in `oid`. -/
structure Query : Type where
  model : ModelT
  filterId : Option String
  options : List String
  oid : Nat
deriving DecidableEq, Repr

/-- The query CtxFactoryQuery.__call__ starts from:
`req.db.query(model).filter(model.id == req.matchdict['id'])`; a matchdict
without 'id' raises KeyError. -/
def baseQuery (model : ModelT) (req : Req) : Except PyExc Query :=
  match lookupAssoc req.matchdict "id" with
  | some i => Except.ok ⟨model, some i, [], 0⟩
  | none => Except.error PyExc.keyError

/-- Appends eager-loading options to a query (`query.options(...)`). -/
def withOptions (q : Query) (opts : List String) : Query :=
  { q with options := q.options ++ opts }

/-- The default eager-loading options for Contribution
(clld/web/app.py:124-138). -/
def contributionOptions : List String :=
  ["joinedload_all valuesets.parameter",
   "joinedload_all valuesets.values.domainelement",
   "joinedload_all references.source",
   "joinedload data"]

/-- The default eager-loading options for ValueSet
(clld/web/app.py:139-144). -/
def valueSetOptions : List String :=
  ["joinedload values", "joinedload parameter", "joinedload language"]

/-- Evaluates a query against the database: the rows of the model, filtered
by the id filter when one is set.  Eager-loading options do not change the
selected rows. -/
def queryExec (db : DB) (q : Query) : List Rec :=
  (db q.model).filter (fun r =>
    match q.filterId with
    | some i => r.id == i
    | none => true)

/-- CtxFactoryQuery.refined_query of the base class
(clld/web/app.py:112-116): returns the query unchanged, and in particular
the identical object. -/
def defaultRefinedQuery (q : Query) (_ : ModelT) (_ : Req) : Query := q

/-- CtxFactoryQuery.__call__ (clld/web/app.py:118-148), for an arbitrary
refined_query override `rq`: when refined_query returned the identical query
the per-model default options are applied; otherwise the customized query is
used unchanged; the single matching row is returned via .one(). -/
def ctxFactoryQueryCall (rq : Query → ModelT → Req → Query) (model : ModelT)
    (req : Req) (db : DB) : Except PyExc Rec :=
  match baseQuery model req with
  | Except.error e => Except.error e
  | Except.ok query =>
    let custom_query := rq query model req
    let q :=
      if query = custom_query then
        let query := if model = ModelT.Contribution
          then withOptions query contributionOptions else query
        let query := if model = ModelT.ValueSet
          then withOptions query valueSetOptions else query
        query
      else custom_query
    listOne (queryExec db q)

/-- A request context: a single model instance with its attached metadata
adapters, or a datatable instantiated with the request and model. -/
inductive Ctx : Type
  | rsc : Rec → List String → Ctx
  | dt : Cls → Req → ModelT → Ctx
deriving DecidableEq, Repr

/-- ctx_factory (clld/web/app.py:151-169).  For 'index' the datatable
registered under the matched route's name is instantiated (a missing
registration raises ComponentLookupError, which is not HTTPNotFound); for
every other type the context is the unique Dataset row when the model is
Dataset and otherwise the row produced by the registered ICtxFactoryQuery
utility (passed in as `cfq`); metadata adapters (`metaOf`, computed by the
external clld.web.adapters.get_adapters) are attached; only NoResultFound is
turned into HTTPNotFound. -/
def ctx_factory (cfg : Config) (cfq : ModelT → Req → DB → Except PyExc Rec)
    (metaOf : Rec → List String) (db : DB) (model : ModelT) (type_ : String)
    (req : Req) : Except PyExc Ctx :=
  if type_ = "index" then
    match lookupUtil cfg.utilities "IDataTable" req.matchedRouteName with
    | some cls => Except.ok (Ctx.dt cls req model)
    | none => Except.error PyExc.componentLookupError
  else
    match (if model = ModelT.Dataset then listOne (db ModelT.Dataset) else cfq model req db) with
    | Except.ok r => Except.ok (Ctx.rsc r (metaOf r))
    | Except.error PyExc.noResultFound => Except.error PyExc.httpNotFound
    | Except.error e => Except.error e

/-- Drops everything up to and including the first '://' of a URL, as a step
of extracting the path (purl's URL(url).path()). -/
def afterScheme : List Char → List Char
  | [] => []
  | c :: rest =>
    if c = ':' ∧ rest.take 2 = ['/', '/'] then rest.drop 2 else afterScheme rest

/-- The path of a URL (purl's URL(url).path()): after scheme and authority,
up to the query or fragment. -/
def urlPath (cs : List Char) : List Char :=
  ((afterScheme cs).dropWhile (fun c => !(c == '/'))).takeWhile
    (fun c => !(c == '?') && !(c == '#'))

/-- The deployment-prefix hack of ctx_for_url
(`re.sub('^\/[a-z]+', '', path)`): a leading slash followed by a nonempty
run of lowercase letters is removed. -/
def dropPathSeg (p : List Char) : List Char :=
  match p with
  | '/' :: rest =>
    if rest.takeWhile isLowerAlpha = [] then p else rest.dropWhile isLowerAlpha
  | _ => p

/-- ClldRequest.ctx_for_url (clld/web/app.py:82-92): the path is matched by
the routes mapper, once more with the prefix hack when no route matched; on
a match with a truthy (nonempty) matchdict, the first RESOURCES entry whose
name equals the matched route's name resolves the context via
model.get(match['id']); in every other case None is returned.  A nonempty
matchdict without an 'id' key would raise KeyError. -/
def ctx_for_url (cfg : Config) (db : DB) (url : String) : Except PyExc (Option Rec) :=
  let p := urlPath url.data
  let info := match firstMatch cfg.routes p with
    | some x => some x
    | none => firstMatch cfg.routes (dropPathSeg p)
  match info with
  | none => Except.ok none
  | some (r, m) =>
    if captNonempty m then
      match cfg.resources.find? (fun rs => rs.name == r.name) with
      | none => Except.ok none
      | some rs =>
        match lookupAssoc (m.map (fun kv => (kv.1, String.mk kv.2))) "id" with
        | some v => Except.ok (dbGet db rs.model v)
        | none => Except.error PyExc.keyError
    else Except.ok none

/-- Looks a route up by name for URL generation (route names are unique in a
committed Pyramid configuration). -/
def findRouteByName (routes : List RouteDef) (n : String) : Option RouteDef :=
  routes.find? (fun r => r.name == n)

/-- request.route_url against a fixed scheme and host: the named route's
pattern is filled from the keywords.  URL quoting is not modelled; the
claims range over ids whose characters need no quoting. -/
def route_url (cfg : Config) (route : String) (kw : List (String × String)) : Option String :=
  (findRouteByName cfg.routes route).bind fun r =>
    (genPath (compilePattern r.pattern) kw).map fun p =>
      "http://example.org" ++ String.mk p

/-- ClldRequest._route combined with resource_url (clld/web/app.py:65-96),
for a real record and no 'ext' keyword: the resource is the explicit one or
the first RESOURCES entry whose interface the object provides (a missing one
fails the assert, modelled as none), and the id keyword defaults to
obj.id. -/
def resource_url (cfg : Config) (obj : Rec) (rsc : Option Res) : Option String :=
  match (match rsc with
         | some r => some r
         | none => cfg.resources.find? (fun r => r.interface == obj.interface)) with
  | none => none
  | some r => route_url cfg r.name [("id", obj.id)]

/-- Replaces every double quote by a single quote
(`label.replace('"', "'")`). -/
def replaceDQuote (s : String) : String :=
  String.mk (s.data.map (fun c => if c = '\x22' then '\x27' else c))

/-- hyperlink (clld/lib/excel.py:8-16): builds the Excel formula
`HYPERLINK("<url>";"<label>")`; a falsy label (None or empty) is replaced by
the url itself, and only a real label has its double quotes replaced. -/
def hyperlink (url : String) (label : Option String) : String :=
  "HYPERLINK(\x22" ++ url ++ "\x22;\x22" ++
    (match label with
     | some l => if l = "" then url else replaceDQuote l
     | none => url) ++ "\x22)"

/-- A resource name as clld uses them: nonempty and all lowercase ASCII
letters. -/
def alphaName (s : String) : Prop := s.data ≠ [] ∧ ∀ c ∈ s.data, isLowerAlpha c = true

/-- An object id that matches the id segment regex [^/\.]+ and needs no URL
quoting. -/
def goodId (s : String) : Prop :=
  s.data ≠ [] ∧ ∀ c ∈ s.data, c ≠ '/' ∧ c ≠ '.' ∧ c ≠ '?' ∧ c ≠ '#'

instance (s : String) : Decidable (alphaName s) := by
  unfold alphaName; infer_instance

instance (s : String) : Decidable (goodId s) := by
  unfold goodId; infer_instance

theorem isLowerAlpha_ne {c : Char} (h : isLowerAlpha c = true) :
    c ≠ '/' ∧ c ≠ '.' ∧ c ≠ '?' ∧ c ≠ '#' ∧ c ≠ '_' ∧ c ≠ '\x7b' := by
  refine ⟨?_, ?_, ?_, ?_, ?_, ?_⟩ <;> (intro e; subst e; exact absurd h (by decide))

theorem takeWhileAll {p : Char → Bool} :
    ∀ {l : List Char}, (∀ c ∈ l, p c = true) → l.takeWhile p = l := by
  intro l
  induction l with
  | nil => intro _; rfl
  | cons c cs ih =>
    intro h
    rw [List.takeWhile_cons, if_pos (by simp [h c (by simp)])]
    rw [ih (fun d hd => h d (by simp [hd]))]

theorem compileSt_lits {cs : List Char} (rest : List Char)
    (h : ∀ c ∈ cs, ¬ c = '\x7b') :
    compileSt false [] (cs ++ rest) = cs.map Tok.lit ++ compileSt false [] rest := by
  induction cs with
  | nil => simp
  | cons c cs ih =>
    rw [List.cons_append, compileSt]
    simp only [if_neg (h c (by simp))]
    rw [ih (fun d hd => h d (by simp [hd]))]
    simp

theorem compileSt_lits_nil {cs : List Char} (h : ∀ c ∈ cs, ¬ c = '\x7b') :
    compileSt false [] cs = cs.map Tok.lit := by
  have h2 := @compileSt_lits cs [] h
  rw [List.append_nil] at h2
  rw [h2]
  simp [compileSt]

theorem charOk_slash (nd : Bool) : charOk nd '/' = false := by
  cases nd <;> decide

theorem charOk_ne_slash {nd : Bool} {c : Char} (h : charOk nd c = true) : c ≠ '/' := by
  intro e; subst e; rw [charOk_slash] at h; exact absurd h (by decide)

theorem charOk_true_iff {c : Char} : charOk true c = true ↔ (c ≠ '/' ∧ c ≠ '.') := by
  simp [charOk]

theorem charOk_false_iff {c : Char} : charOk false c = true ↔ c ≠ '/' := by
  simp [charOk]

theorem tokCapt_lit_cons {c : Char} {ts : List Tok} {ds : List Char} :
    tokCapt (Tok.lit c :: ts) (c :: ds) = tokCapt ts ds := by
  simp [tokCapt, tokCaptAux]

theorem tokCapt_lits {L : List Char} {ts : List Tok} {cs : List Char} :
    tokCapt (L.map Tok.lit ++ ts) (L ++ cs) = tokCapt ts cs := by
  induction L with
  | nil => simp
  | cons c L ih => simpa [tokCapt_lit_cons] using ih

theorem tokCapt_lits_inv {L : List Char} {ts : List Tok} {cs : List Char}
    {m : List (String × List Char)}
    (h : tokCapt (L.map Tok.lit ++ ts) cs = some m) :
    ∃ cs', cs = L ++ cs' ∧ tokCapt ts cs' = some m := by
  induction L generalizing cs with
  | nil => exact ⟨cs, by simpa using h⟩
  | cons c L ih =>
    cases cs with
    | nil => simp [tokCapt, tokCaptAux] at h
    | cons d ds =>
      rw [List.map_cons, List.cons_append, tokCapt, tokCaptAux] at h
      by_cases e : c = d
      · subst e
        simp only [if_pos rfl] at h
        obtain ⟨cs', rfl, h2⟩ := ih h
        exact ⟨cs', by simp, h2⟩
      · simp [if_neg e] at h

theorem tokCapt_star_last {n : String} {nd : Bool} {v : List Char}
    (h1 : v ≠ []) (h2 : ∀ c ∈ v, charOk nd c = true) :
    tokCapt [Tok.star n nd] v = some [(n, v)] := by
  induction v with
  | nil => exact absurd rfl h1
  | cons d ds ih =>
    rw [tokCapt, tokCaptAux]
    simp only [if_pos (h2 d (by simp))]
    cases ds with
    | nil => rfl
    | cons e es =>
      rw [show tokCaptAux (e :: es) [Tok.star n nd] =
            tokCapt [Tok.star n nd] (e :: es) from rfl]
      rw [ih (by simp) (fun c hc => h2 c (by simp [hc]))]

theorem tokCapt_star_last_inv {n : String} {nd : Bool} {v : List Char}
    {m : List (String × List Char)}
    (h : tokCapt [Tok.star n nd] v = some m) :
    m = [(n, v)] ∧ v ≠ [] ∧ ∀ c ∈ v, charOk nd c = true := by
  induction v generalizing m with
  | nil => simp [tokCapt, tokCaptAux] at h
  | cons d ds ih =>
    rw [tokCapt, tokCaptAux] at h
    by_cases hok : charOk nd d = true
    · simp only [if_pos hok] at h
      cases ds with
      | nil =>
        simp [tokCapt, tokCaptAux] at h
        refine ⟨by simp [← h], by simp, ?_⟩
        intro c hc
        simp at hc
        subst hc
        exact hok
      | cons e es =>
        cases hrec : tokCapt [Tok.star n nd] (e :: es) with
        | some m' =>
          obtain ⟨rfl, hne, hall⟩ := ih hrec
          rw [tokCapt] at hrec
          rw [hrec] at h
          simp at h
          refine ⟨by simp [← h], by simp, ?_⟩
          intro c hc
          rcases List.mem_cons.mp hc with rfl | hc
          · exact hok
          · exact hall c hc
        | none =>
          rw [tokCapt] at hrec
          rw [hrec] at h
          simp [tokCaptAux] at h
    · simp [if_neg hok] at h

/-- Number of literal occurrences of a character in a compiled pattern. -/
def litCount (c : Char) (ts : List Tok) : Nat := ts.countP (fun t => t == Tok.lit c)

theorem tokCaptAux_slash_count :
    ∀ {cs : List Char} {ts : List Tok} {m : List (String × List Char)},
      tokCaptAux cs ts = some m → cs.count '/' = litCount '/' ts := by
  intro cs
  induction cs with
  | nil =>
    intro ts m h
    cases ts with
    | nil => simp [litCount]
    | cons t ts => simp [tokCaptAux] at h
  | cons d ds ih =>
    intro ts m h
    cases ts with
    | nil => simp [tokCaptAux] at h
    | cons t ts =>
      cases t with
      | lit c =>
        rw [tokCaptAux] at h
        by_cases e : c = d
        · subst e
          simp only [if_pos rfl] at h
          have h2 := ih h
          by_cases e2 : c = '/' <;>
            simp [List.count_cons, litCount, List.countP_cons, h2, e2]
        · simp [if_neg e] at h
      | star n nd =>
        rw [tokCaptAux] at h
        by_cases hok : charOk nd d = true
        · simp only [if_pos hok] at h
          have hd : ¬ d = '/' := charOk_ne_slash hok
          have hgoal :
              ds.count '/' = litCount '/' (Tok.star n nd :: ts) ∨
              ds.count '/' = litCount '/' ts →
              (d :: ds).count '/' = litCount '/' (Tok.star n nd :: ts) := by
            intro hor
            have : litCount '/' (Tok.star n nd :: ts) = litCount '/' ts := by
              simp [litCount, List.countP_cons]
            rcases hor with h1 | h1 <;>
              simp [List.count_cons, hd, this, h1]
          cases hrec : tokCaptAux ds (Tok.star n nd :: ts) with
          | some m1 =>
            cases m1 with
            | cons kv m2 =>
              exact hgoal (Or.inl (ih hrec))
            | nil =>
              rw [hrec] at h
              cases hrec2 : tokCaptAux ds ts with
              | some m2 => exact hgoal (Or.inr (ih hrec2))
              | none => rw [hrec2] at h; simp at h
          | none =>
            rw [hrec] at h
            cases hrec2 : tokCaptAux ds ts with
            | some m2 => exact hgoal (Or.inr (ih hrec2))
            | none => rw [hrec2] at h; simp at h
        · simp [if_neg hok] at h

theorem tokCaptAux_dot_le :
    ∀ {cs : List Char} {ts : List Tok} {m : List (String × List Char)},
      tokCaptAux cs ts = some m → litCount '.' ts ≤ cs.count '.' := by
  intro cs
  induction cs with
  | nil =>
    intro ts m h
    cases ts with
    | nil => simp [litCount]
    | cons t ts => simp [tokCaptAux] at h
  | cons d ds ih =>
    intro ts m h
    cases ts with
    | nil => simp [tokCaptAux] at h
    | cons t ts =>
      cases t with
      | lit c =>
        rw [tokCaptAux] at h
        by_cases e : c = d
        · subst e
          simp only [if_pos rfl] at h
          have h2 := ih h
          simp only [List.count_cons, litCount, List.countP_cons] at h2 ⊢
          by_cases e2 : c = '.' <;> simp [e2] <;> omega
        · simp [if_neg e] at h
      | star n nd =>
        rw [tokCaptAux] at h
        by_cases hok : charOk nd d = true
        · simp only [if_pos hok] at h
          have hstar : litCount '.' (Tok.star n nd :: ts) = litCount '.' ts := by
            simp [litCount, List.countP_cons]
          have hmono : ds.count '.' ≤ (d :: ds).count '.' := by
            rw [List.count_cons]
            split <;> omega
          cases hrec : tokCaptAux ds (Tok.star n nd :: ts) with
          | some m1 =>
            cases m1 with
            | cons kv m2 =>
              have := ih hrec
              rw [hstar] at this ⊢
              omega
            | nil =>
              rw [hrec] at h
              cases hrec2 : tokCaptAux ds ts with
              | some m2 =>
                have := ih hrec2
                rw [hstar]
                omega
              | none => rw [hrec2] at h; simp at h
          | none =>
            rw [hrec] at h
            cases hrec2 : tokCaptAux ds ts with
            | some m2 =>
              have := ih hrec2
              rw [hstar]
              omega
            | none => rw [hrec2] at h; simp at h
        · simp [if_neg hok] at h

theorem tokCapt_none_of_slash {ts : List Tok} {cs : List Char}
    (h : litCount '/' ts ≠ cs.count '/') : tokCapt ts cs = none := by
  cases e : tokCapt ts cs with
  | none => rfl
  | some m => exact absurd (tokCaptAux_slash_count e).symm h

theorem tokCapt_none_of_dot {ts : List Tok} {cs : List Char}
    (h : cs.count '.' < litCount '.' ts) : tokCapt ts cs = none := by
  cases e : tokCapt ts cs with
  | none => rfl
  | some m => exact absurd (tokCaptAux_dot_le e) (by omega)

theorem firstMatch_cons_some {r : RouteDef} {rs : List RouteDef} {p : List Char}
    {m : List (String × List Char)}
    (h : tokCapt (compilePattern r.pattern) p = some m) :
    firstMatch (r :: rs) p = some (r, m) := by
  simp [firstMatch, h]

theorem firstMatch_cons_none {r : RouteDef} {rs : List RouteDef} {p : List Char}
    (h : tokCapt (compilePattern r.pattern) p = none) :
    firstMatch (r :: rs) p = firstMatch rs p := by
  simp [firstMatch, h]

theorem firstMatch_append_none {l1 l2 : List RouteDef} {p : List Char}
    (h : ∀ r ∈ l1, tokCapt (compilePattern r.pattern) p = none) :
    firstMatch (l1 ++ l2) p = firstMatch l2 p := by
  induction l1 with
  | nil => simp
  | cons r rs ih =>
    rw [List.cons_append, firstMatch_cons_none (h r (by simp))]
    exact ih (fun r' hr' => h r' (by simp [hr']))

theorem genPath_lits {L : List Char} {ts : List Tok} {kw : List (String × String)} :
    genPath (L.map Tok.lit ++ ts) kw = (genPath ts kw).map (fun p => L ++ p) := by
  induction L with
  | nil => simp
  | cons c L ih =>
    rw [List.map_cons, List.cons_append, genPath, ih]
    cases genPath ts kw <;> simp

theorem ne_append_alt {s t : String} (ha : alphaName s) : s ≠ t ++ "_alt" := by
  intro e
  have hm : '_' ∈ (t ++ "_alt").data := by
    rw [String.data_append]
    exact List.mem_append.mpr (Or.inr (by decide))
  rw [← e] at hm
  exact absurd (ha.2 _ hm) (by decide)

theorem ne_self_append_s {s : String} : s ≠ s ++ "s" := by
  intro e
  have h : s.data.length = (s ++ "s").data.length := by rw [← e]
  rw [String.data_append, List.length_append] at h
  have : ("s" : String).data.length = 1 := by decide
  omega

theorem find?_interface {l : List Res} {rsc : Res} {iface : String}
    (hmem : rsc ∈ l) (hobj : iface = rsc.interface)
    (huniq : ∀ r' ∈ l, r'.interface = rsc.interface → r' = rsc) :
    l.find? (fun r => r.interface == iface) = some rsc := by
  induction l with
  | nil => simp at hmem
  | cons a l ih =>
    by_cases e : a.interface = iface
    · rw [List.find?_cons_of_pos _ (by simp [e])]
      rw [huniq a (by simp) (by rw [e, hobj])]
    · rw [List.find?_cons_of_neg _ (by simp [e])]
      have hm : rsc ∈ l := by
        rcases List.mem_cons.mp hmem with rfl | h
        · exact absurd hobj.symm e
        · exact h
      exact ih hm (fun r' hr' h' => huniq r' (by simp [hr']) h')

theorem find?_name_pairwise {l : List Res} {rsc : Res}
    (hmem : rsc ∈ l) (hdist : l.Pairwise (fun a b => a.name ≠ b.name)) :
    l.find? (fun r => r.name == rsc.name) = some rsc := by
  induction l with
  | nil => simp at hmem
  | cons a l ih =>
    rcases List.mem_cons.mp hmem with rfl | h
    · rw [List.find?_cons_of_pos _ (by simp)]
    · have hna : a.name ≠ rsc.name := (List.pairwise_cons.mp hdist).1 rsc h
      rw [List.find?_cons_of_neg _ (by simp [hna])]
      exact ih h (List.pairwise_cons.mp hdist).2

/-- The routes registered by includeme before the RESOURCES loop, when no
route-pattern override is configured. -/
def staticRouteDefs : List RouteDef :=
  [⟨"legal", "/legal", none⟩, ⟨"legal_alt", "/legal.\x7bext\x7d", none⟩,
   ⟨"_js", "/_js", none⟩, ⟨"_js_alt", "/_js.\x7bext\x7d", none⟩,
   ⟨"_raise", "/_raise", none⟩, ⟨"_raise_alt", "/_raise.\x7bext\x7d", none⟩,
   ⟨"_ping", "/_ping", none⟩, ⟨"_ping_alt", "/_ping.\x7bext\x7d", none⟩,
   ⟨"robots", "/robots.txt", none⟩, ⟨"robots_alt", "/robots.txt.\x7bext\x7d", none⟩,
   ⟨"sitemapindex", "/sitemap.xml", none⟩,
   ⟨"sitemapindex_alt", "/sitemap.xml.\x7bext\x7d", none⟩,
   ⟨"sitemap", "/sitemap.\x7brsc\x7d.\x7bn\x7d.xml", none⟩,
   ⟨"sitemap_alt", "/sitemap.\x7brsc\x7d.\x7bn\x7d.xml.\x7bext\x7d", none⟩,
   ⟨"unapi", "/unapi", none⟩, ⟨"unapi_alt", "/unapi.\x7bext\x7d", none⟩,
   ⟨"olac", "/olac", none⟩, ⟨"olac_alt", "/olac.\x7bext\x7d", none⟩]

/-- The routes one RESOURCES entry contributes in includeme's loop, when no
route-pattern override is configured. -/
def resourceRouteBlock (r : Res) : List RouteDef :=
  (if r.with_index then
    [⟨r.name ++ "s", "/" ++ (r.name ++ "s"), some (r.model, "index")⟩,
     ⟨(r.name ++ "s") ++ "_alt", "/" ++ (r.name ++ "s") ++ ".\x7bext\x7d",
       some (r.model, "index")⟩]
   else []) ++
  (if r.model = ModelT.Dataset then
    [⟨r.name, "/", some (r.model, "rsc")⟩,
     ⟨r.name ++ "_alt", "/void.\x7bext\x7d", some (r.model, "rsc")⟩]
   else
    [⟨r.name, "/" ++ (r.name ++ "s") ++ "/\x7bid:[^/\\.]+\x7d", some (r.model, "rsc")⟩,
     ⟨r.name ++ "_alt", "/" ++ (r.name ++ "s") ++ "/\x7bid:[^/\\.]+\x7d" ++ ".\x7bext\x7d",
       some (r.model, "rsc")⟩])

theorem addStaticRoutes_routes {cfg : Config} (hrp : cfg.routePatterns = []) :
    (addStaticRoutes cfg).routes = cfg.routes ++ staticRouteDefs := by
  simp [addStaticRoutes, add_route_and_view, hrp, lookupAssoc, staticRouteDefs]

theorem addStaticRoutes_routePatterns {cfg : Config} :
    (addStaticRoutes cfg).routePatterns = cfg.routePatterns := by
  simp [addStaticRoutes, add_route_and_view]

theorem addStaticRoutes_resources {cfg : Config} :
    (addStaticRoutes cfg).resources = cfg.resources := by
  simp [addStaticRoutes, add_route_and_view]

theorem addStaticRoutes_settings {cfg : Config} :
    (addStaticRoutes cfg).settings = cfg.settings := by
  simp [addStaticRoutes, add_route_and_view]

theorem registerAdapterD_routes {cfg : Config} {cls : Cls} {f : String}
    {t n : Option String} : (registerAdapterD cfg cls f t n).routes = cfg.routes := by
  unfold registerAdapterD register_adapter
  rcases t with _ | tv
  · cases cls.implements.head? <;> simp
  · simp

theorem registerAdapterD_fields {cfg : Config} {cls : Cls} {f : String}
    {t n : Option String} :
    (registerAdapterD cfg cls f t n).routePatterns = cfg.routePatterns ∧
    (registerAdapterD cfg cls f t n).resources = cfg.resources ∧
    (registerAdapterD cfg cls f t n).settings = cfg.settings := by
  unfold registerAdapterD register_adapter
  rcases t with _ | tv
  · cases cls.implements.head? <;> simp
  · simp

theorem register_cls_fields {i : String} {cfg : Config} {route : String} {cls : Cls} :
    (register_cls i cfg route cls).routes = cfg.routes ∧
    (register_cls i cfg route cls).routePatterns = cfg.routePatterns ∧
    (register_cls i cfg route cls).resources = cfg.resources ∧
    (register_cls i cfg route cls).settings = cfg.settings := by
  unfold register_cls
  split <;> simp

theorem addResource_routes {cfg : Config} {r : Res} (hrp : cfg.routePatterns = []) :
    (addResource cfg r).routes = cfg.routes ++ resourceRouteBlock r := by
  by_cases hwi : r.with_index = true <;> by_cases hds : r.model = ModelT.Dataset <;>
    simp [addResource, resourceRouteBlock, add_route_and_view, hwi, hds, hrp,
      lookupAssoc, registerAdapterD_routes, register_cls_fields.1,
      register_cls_fields.2.1, registerAdapterD_fields.1]

theorem addResource_routePatterns {cfg : Config} {r : Res} :
    (addResource cfg r).routePatterns = cfg.routePatterns := by
  by_cases hwi : r.with_index = true <;> by_cases hds : r.model = ModelT.Dataset <;>
    simp [addResource, add_route_and_view, hwi, hds,
      register_cls_fields.2.1, registerAdapterD_fields.1]

theorem addResource_resources {cfg : Config} {r : Res} :
    (addResource cfg r).resources = cfg.resources := by
  by_cases hwi : r.with_index = true <;> by_cases hds : r.model = ModelT.Dataset <;>
    simp [addResource, add_route_and_view, hwi, hds,
      register_cls_fields.2.2.1, registerAdapterD_fields.2.1]

theorem addResource_settings {cfg : Config} {r : Res} :
    (addResource cfg r).settings = cfg.settings := by
  by_cases hwi : r.with_index = true <;> by_cases hds : r.model = ModelT.Dataset <;>
    simp [addResource, add_route_and_view, hwi, hds,
      register_cls_fields.2.2.2, registerAdapterD_fields.2.2]

theorem foldl_addResource_routes :
    ∀ (rs : List Res) (cfg : Config), cfg.routePatterns = [] →
      (rs.foldl addResource cfg).routes =
        cfg.routes ++ (rs.map resourceRouteBlock).flatten := by
  intro rs
  induction rs with
  | nil => intro cfg _; simp
  | cons r rs ih =>
    intro cfg hrp
    rw [List.foldl_cons, ih (addResource cfg r) (by rw [addResource_routePatterns, hrp])]
    rw [addResource_routes hrp]
    simp

theorem foldl_addResource_resources :
    ∀ (rs : List Res) (cfg : Config),
      (rs.foldl addResource cfg).resources = cfg.resources := by
  intro rs
  induction rs with
  | nil => intro cfg; rfl
  | cons r rs ih =>
    intro cfg
    rw [List.foldl_cons, ih, addResource_resources]

theorem foldl_addResource_settings :
    ∀ (rs : List Res) (cfg : Config),
      (rs.foldl addResource cfg).settings = cfg.settings := by
  intro rs
  induction rs with
  | nil => intro cfg; rfl
  | cons r rs ih =>
    intro cfg
    rw [List.foldl_cons, ih, addResource_settings]

theorem includemeBase_fields {fh : String} {cfg : Config} :
    (includemeBase fh cfg).routes = cfg.routes ∧
    (includemeBase fh cfg).routePatterns = cfg.routePatterns ∧
    (includemeBase fh cfg).resources = cfg.resources := by
  exact ⟨rfl, rfl, rfl⟩

theorem includemeMaps_fields {cfg : Config} :
    (includemeMaps cfg).routes = cfg.routes ∧
    (includemeMaps cfg).routePatterns = cfg.routePatterns ∧
    (includemeMaps cfg).resources = cfg.resources ∧
    (includemeMaps cfg).settings = cfg.settings := by
  unfold includemeMaps
  refine ⟨?_, ?_, ?_, ?_⟩
  · rw [register_cls_fields.1, register_cls_fields.1, register_cls_fields.1]
  · rw [register_cls_fields.2.1, register_cls_fields.2.1, register_cls_fields.2.1]
  · rw [register_cls_fields.2.2.1, register_cls_fields.2.2.1, register_cls_fields.2.2.1]
  · rw [register_cls_fields.2.2.2, register_cls_fields.2.2.2, register_cls_fields.2.2.2]

theorem includeme_routes {fh : String} {cfg : Config} (hrp : cfg.routePatterns = []) :
    (includeme fh cfg).routes =
      cfg.routes ++ staticRouteDefs ++ (cfg.resources.map resourceRouteBlock).flatten := by
  unfold includeme
  rw [includemeMaps_fields.1]
  rw [foldl_addResource_routes _ _
    (by rw [addStaticRoutes_routePatterns, includemeBase_fields.2.1, hrp])]
  rw [addStaticRoutes_resources, includemeBase_fields.2.2,
    addStaticRoutes_routes (by rw [includemeBase_fields.2.1, hrp]),
    includemeBase_fields.1]

theorem includeme_resources {fh : String} {cfg : Config} :
    (includeme fh cfg).resources = cfg.resources := by
  unfold includeme
  rw [includemeMaps_fields.2.2.1, foldl_addResource_resources,
    addStaticRoutes_resources, includemeBase_fields.2.2]

theorem litCount_map_lit {c : Char} {L : List Char} :
    litCount c (L.map Tok.lit) = L.count c := by
  induction L with
  | nil => rfl
  | cons d L ih =>
    simp only [List.map_cons, litCount, List.countP_cons, List.count_cons] at *
    rw [ih]
    by_cases e : d = c <;> simp [e]

theorem litCount_append {c : Char} {t1 t2 : List Tok} :
    litCount c (t1 ++ t2) = litCount c t1 + litCount c t2 := by
  simp [litCount, List.countP_append]

theorem count_eq_zero_of_ne {c : Char} {l : List Char} (h : ∀ d ∈ l, d ≠ c) :
    l.count c = 0 :=
  List.count_eq_zero.mpr (fun hc => (h c hc) rfl)

theorem count_path_slash {A v : List Char} (hA : ∀ c ∈ A, c ≠ '/')
    (hv : ∀ c ∈ v, c ≠ '/') : ('/' :: (A ++ '/' :: v)).count '/' = 2 := by
  simp [List.count_cons, List.count_append, count_eq_zero_of_ne hA,
    count_eq_zero_of_ne hv]

theorem count_path_dot {A v : List Char} (hA : ∀ c ∈ A, c ≠ '.')
    (hv : ∀ c ∈ v, c ≠ '.') : ('/' :: (A ++ '/' :: v)).count '.' = 0 := by
  simp [List.count_cons, List.count_append, count_eq_zero_of_ne hA,
    count_eq_zero_of_ne hv]

theorem slashfree_split {A : List Char} :
    ∀ {B x y : List Char}, (∀ c ∈ A, c ≠ '/') → (∀ c ∈ B, c ≠ '/') →
      A ++ '/' :: x = B ++ '/' :: y → A = B ∧ x = y := by
  induction A with
  | nil =>
    intro B x y _ hB h
    cases B with
    | nil => simpa using h
    | cons b B' =>
      simp only [List.nil_append, List.cons_append, List.cons.injEq] at h
      exact absurd h.1.symm (hB b (by simp))
  | cons a A' ih =>
    intro B x y hA hB h
    cases B with
    | nil =>
      simp only [List.cons_append, List.nil_append, List.cons.injEq] at h
      exact absurd h.1 (hA a (by simp))
    | cons b B' =>
      simp only [List.cons_append, List.cons.injEq] at h
      obtain ⟨h1, h2⟩ := ih (fun c hc => hA c (by simp [hc]))
        (fun c hc => hB c (by simp [hc])) h.2
      exact ⟨by rw [h.1, h1], h2⟩

theorem plural_chars {s : String} (ha : alphaName s) :
    ∀ c ∈ (s ++ "s").data, c ≠ '/' ∧ c ≠ '.' ∧ c ≠ '\x7b' ∧ c ≠ '?' ∧ c ≠ '#' := by
  intro c hc
  rw [String.data_append] at hc
  rcases List.mem_append.mp hc with h | h
  · have hn := isLowerAlpha_ne (ha.2 c h)
    exact ⟨hn.1, hn.2.1, hn.2.2.2.2.2, hn.2.2.1, hn.2.2.2.1⟩
  · have he : c = 's' := by simpa using h
    subst he
    exact ⟨by decide, by decide, by decide, by decide, by decide⟩

theorem staticRouteDefs_no_match {p : List Char} (hp : p.count '/' = 2) :
    ∀ r ∈ staticRouteDefs, tokCapt (compilePattern r.pattern) p = none := by
  intro r hr
  fin_cases hr <;> (apply tokCapt_none_of_slash; rw [hp]; decide)

theorem urlPath_host {t : List Char} (h : ∀ c ∈ t, (!(c == '?') && !(c == '#')) = true) :
    urlPath (("http://example.org" ++ String.mk ('/' :: t)).data) = '/' :: t := by
  have e0 : ("http://example.org" ++ String.mk ('/' :: t)).data =
      "http://example.org".data ++ ('/' :: t) := String.data_append _ _
  rw [urlPath, e0]
  have e1 : afterScheme ("http://example.org".data ++ ('/' :: t)) =
      "example.org".data ++ ('/' :: t) := rfl
  rw [e1]
  have e2 : ("example.org".data ++ ('/' :: t)).dropWhile (fun c => !(c == '/')) =
      '/' :: t := rfl
  rw [e2, List.takeWhile_cons, if_pos (by decide)]
  rw [takeWhileAll h]

theorem compilePattern_litRun {pre suffix : String}
    (h : ∀ c ∈ pre.data, c ≠ '\x7b') :
    compilePattern (pre ++ suffix) = pre.data.map Tok.lit ++ compilePattern suffix := by
  rw [compilePattern, String.data_append,
    compileSt_lits _ (fun c hc e => (h c hc) e), compilePattern]

theorem compile_ext_tail :
    compilePattern ".\x7bext\x7d" = [Tok.lit '.', Tok.star "ext" false] := by decide

theorem compile_id_tail :
    compilePattern "/\x7bid:[^/\\.]+\x7d" = [Tok.lit '/', Tok.star "id" true] := by decide

theorem compile_id_ext_tail :
    compilePattern ("/\x7bid:[^/\\.]+\x7d" ++ ".\x7bext\x7d") =
      [Tok.lit '/', Tok.star "id" true, Tok.lit '.', Tok.star "ext" false] := by decide

theorem slash_name_brace {nm : String} (ha : alphaName nm) :
    ∀ c ∈ ("/" ++ (nm ++ "s")).data, c ≠ '\x7b' := by
  intro c hc
  rw [String.data_append] at hc
  rcases List.mem_append.mp hc with h | h
  · have he : c = '/' := by simpa using h
    subst he; decide
  · exact (plural_chars ha c h).2.2.1

theorem slash_name_count {nm : String} (ha : alphaName nm) :
    ("/" ++ (nm ++ "s")).data.count '/' = 1 := by
  have h0 : (nm ++ "s").data.count '/' = 0 :=
    count_eq_zero_of_ne (fun c hc => (plural_chars ha c hc).1)
  have h1 : ("/" : String).data.count '/' = 1 := by decide
  rw [String.data_append, List.count_append, h0, h1]

theorem slash_name_dots {nm : String} (ha : alphaName nm) :
    ("/" ++ (nm ++ "s")).data.count '.' = 0 := by
  have h0 : (nm ++ "s").data.count '.' = 0 :=
    count_eq_zero_of_ne (fun c hc => (plural_chars ha c hc).2.1)
  have h1 : ("/" : String).data.count '.' = 0 := by decide
  rw [String.data_append, List.count_append, h0, h1]

theorem plural_base_no_match {nm : String} {p : List Char} (ha : alphaName nm)
    (hp2 : p.count '/' = 2) :
    tokCapt (compilePattern ("/" ++ (nm ++ "s"))) p = none := by
  apply tokCapt_none_of_slash
  rw [compilePattern, compileSt_lits_nil (fun c hc e => (slash_name_brace ha c hc) e)]
  rw [litCount_map_lit, slash_name_count ha, hp2]
  omega

theorem plural_alt_no_match {nm : String} {p : List Char} (ha : alphaName nm)
    (hp2 : p.count '/' = 2) :
    tokCapt (compilePattern ("/" ++ (nm ++ "s") ++ ".\x7bext\x7d")) p = none := by
  apply tokCapt_none_of_slash
  rw [compilePattern_litRun (slash_name_brace ha), compile_ext_tail]
  rw [litCount_append, litCount_map_lit, slash_name_count ha, hp2]
  have : litCount '/' [Tok.lit '.', Tok.star "ext" false] = 0 := by decide
  omega

theorem singular_alt_no_match {nm : String} {A v : List Char} (ha : alphaName nm)
    (hA : ∀ c ∈ A, c ≠ '.') (hv : ∀ c ∈ v, c ≠ '.') :
    tokCapt (compilePattern ("/" ++ (nm ++ "s") ++ "/\x7bid:[^/\\.]+\x7d" ++ ".\x7bext\x7d"))
      ('/' :: (A ++ '/' :: v)) = none := by
  apply tokCapt_none_of_dot
  rw [String.append_assoc ("/" ++ (nm ++ "s")), compilePattern_litRun (slash_name_brace ha),
    compile_id_ext_tail]
  rw [litCount_append, litCount_map_lit, slash_name_dots ha, count_path_dot hA hv]
  decide

theorem singular_base_no_match {nm : String} {A v : List Char} (ha : alphaName nm)
    (hA : ∀ c ∈ A, c ≠ '/') (hne : (nm ++ "s").data ≠ A) :
    tokCapt (compilePattern ("/" ++ (nm ++ "s") ++ "/\x7bid:[^/\\.]+\x7d"))
      ('/' :: (A ++ '/' :: v)) = none := by
  cases e : tokCapt (compilePattern ("/" ++ (nm ++ "s") ++ "/\x7bid:[^/\\.]+\x7d"))
      ('/' :: (A ++ '/' :: v)) with
  | none => rfl
  | some m =>
    exfalso
    rw [compilePattern_litRun (slash_name_brace ha), compile_id_tail] at e
    have e2 : ("/" ++ (nm ++ "s")).data.map Tok.lit ++ [Tok.lit '/', Tok.star "id" true] =
        (("/" ++ (nm ++ "s")).data ++ ['/']).map Tok.lit ++ [Tok.star "id" true] := by
      simp
    rw [e2] at e
    obtain ⟨cs', hcs, hstar⟩ := tokCapt_lits_inv e
    obtain ⟨_, hne', hok⟩ := tokCapt_star_last_inv hstar
    have hdata : ("/" ++ (nm ++ "s")).data = '/' :: (nm ++ "s").data := by
      rw [String.data_append]; rfl
    rw [hdata] at hcs
    simp only [List.cons_append, List.append_assoc, List.cons.injEq] at hcs
    have hcs2 : A ++ '/' :: v = (nm ++ "s").data ++ '/' :: cs' := by
      simpa using hcs.2
    have hsplit := slashfree_split hA
      (fun c hc => (plural_chars ha c hc).1) hcs2
    exact hne hsplit.1.symm

theorem block_no_match {r' : Res} {A v : List Char}
    (ha : alphaName r'.name)
    (hA : ∀ c ∈ A, c ≠ '/' ∧ c ≠ '.')
    (hv : ∀ c ∈ v, c ≠ '/' ∧ c ≠ '.')
    (hne : (r'.name ++ "s").data ≠ A) :
    ∀ rd ∈ resourceRouteBlock r',
      tokCapt (compilePattern rd.pattern) ('/' :: (A ++ '/' :: v)) = none := by
  intro rd hrd
  have hp2 : ('/' :: (A ++ '/' :: v)).count '/' = 2 :=
    count_path_slash (fun c hc => (hA c hc).1) (fun c hc => (hv c hc).1)
  simp only [resourceRouteBlock, List.mem_append] at hrd
  rcases hrd with hwi | hds
  · rcases hwi2 : r'.with_index with _ | _
    · rw [hwi2] at hwi; simp at hwi
    · rw [hwi2] at hwi
      rw [if_pos rfl] at hwi
      simp at hwi
      rcases hwi with rfl | rfl
      · exact plural_base_no_match ha hp2
      · exact plural_alt_no_match ha hp2
  · by_cases hm : r'.model = ModelT.Dataset
    · rw [if_pos hm] at hds
      simp at hds
      rcases hds with rfl | rfl
      · dsimp only
        apply tokCapt_none_of_slash
        rw [hp2]; decide
      · dsimp only
        apply tokCapt_none_of_slash
        rw [hp2]; decide
    · rw [if_neg hm] at hds
      simp at hds
      rcases hds with rfl | rfl
      · exact singular_base_no_match ha (fun c hc => (hA c hc).1) hne
      · exact singular_alt_no_match ha (fun c hc => (hA c hc).2)
          (fun c hc => (hv c hc).2)

/-- The singular route entry includeme registers for a non-Dataset
resource. -/
def singularRoute (r : Res) : RouteDef :=
  ⟨r.name, "/" ++ (r.name ++ "s") ++ "/\x7bid:[^/\\.]+\x7d", some (r.model, "rsc")⟩

theorem table_match {resources : List Res} {rsc : Res} {v : List Char}
    (hmem : rsc ∈ resources)
    (hnames : ∀ r ∈ resources, alphaName r.name)
    (hdist : resources.Pairwise (fun a b => a.name ≠ b.name))
    (hnd : ¬ rsc.model = ModelT.Dataset)
    (hvne : v ≠ []) (hv : ∀ c ∈ v, c ≠ '/' ∧ c ≠ '.') :
    firstMatch (staticRouteDefs ++ (resources.map resourceRouteBlock).flatten)
      ('/' :: ((rsc.name ++ "s").data ++ '/' :: v)) =
      some (singularRoute rsc, [("id", v)]) := by
  obtain ⟨pre, post, rfl⟩ := List.append_of_mem hmem
  have haRsc : alphaName rsc.name := hnames rsc (by simp)
  have hAprops : ∀ c ∈ (rsc.name ++ "s").data, c ≠ '/' ∧ c ≠ '.' := fun c hc =>
    ⟨(plural_chars haRsc c hc).1, (plural_chars haRsc c hc).2.1⟩
  have hp2 : ('/' :: ((rsc.name ++ "s").data ++ '/' :: v)).count '/' = 2 :=
    count_path_slash (fun c hc => (hAprops c hc).1) (fun c hc => (hv c hc).1)
  rw [firstMatch_append_none (staticRouteDefs_no_match hp2)]
  have hmapflat : ((pre ++ rsc :: post).map resourceRouteBlock).flatten =
      (pre.map resourceRouteBlock).flatten ++
        (resourceRouteBlock rsc ++ (post.map resourceRouteBlock).flatten) := by
    simp
  rw [hmapflat]
  have hpre : ∀ rd ∈ (pre.map resourceRouteBlock).flatten,
      tokCapt (compilePattern rd.pattern)
        ('/' :: ((rsc.name ++ "s").data ++ '/' :: v)) = none := by
    intro rd hrd
    rw [List.mem_flatten] at hrd
    obtain ⟨l, hl, hrdl⟩ := hrd
    rw [List.mem_map] at hl
    obtain ⟨r', hr', rfl⟩ := hl
    have hr'mem : r' ∈ pre ++ rsc :: post := by simp [hr']
    have hne : (r'.name ++ "s").data ≠ (rsc.name ++ "s").data := by
      intro e
      have h2 : r'.name ++ "s" = rsc.name ++ "s" := congrArg String.mk e
      have h3 : r'.name = rsc.name := by
        have h4 := congrArg String.data h2
        rw [String.data_append, String.data_append] at h4
        exact congrArg String.mk (List.append_cancel_right h4)
      exact (List.pairwise_append.mp hdist).2.2 r' hr' rsc (by simp) h3
    exact block_no_match (hnames r' hr'mem) hAprops hv hne rd hrdl
  rw [firstMatch_append_none hpre]
  rw [resourceRouteBlock, if_neg hnd]
  have hwi : ∀ rd ∈ (if rsc.with_index then
      [(⟨rsc.name ++ "s", "/" ++ (rsc.name ++ "s"), some (rsc.model, "index")⟩ : RouteDef),
       ⟨(rsc.name ++ "s") ++ "_alt", "/" ++ (rsc.name ++ "s") ++ ".\x7bext\x7d",
         some (rsc.model, "index")⟩]
      else []),
      tokCapt (compilePattern rd.pattern)
        ('/' :: ((rsc.name ++ "s").data ++ '/' :: v)) = none := by
    intro rd hrd
    rcases hwi2 : rsc.with_index with _ | _
    · rw [hwi2] at hrd; simp at hrd
    · rw [hwi2, if_pos rfl] at hrd
      simp at hrd
      rcases hrd with rfl | rfl
      · exact plural_base_no_match haRsc hp2
      · exact plural_alt_no_match haRsc hp2
  rw [List.append_assoc, firstMatch_append_none hwi]
  rw [List.cons_append]
  apply firstMatch_cons_some
  dsimp only
  rw [compilePattern_litRun (slash_name_brace haRsc), compile_id_tail]
  have hdata : ("/" ++ (rsc.name ++ "s")).data = '/' :: (rsc.name ++ "s").data := by
    rw [String.data_append]; rfl
  rw [hdata]
  have e2 : ('/' :: (rsc.name ++ "s").data).map Tok.lit ++
      [Tok.lit '/', Tok.star "id" true] =
      (('/' :: (rsc.name ++ "s").data) ++ ['/']).map Tok.lit ++ [Tok.star "id" true] := by
    simp
  have e3 : '/' :: ((rsc.name ++ "s").data ++ '/' :: v) =
      (('/' :: (rsc.name ++ "s").data) ++ ['/']) ++ v := by
    simp
  rw [e2, e3, tokCapt_lits]
  exact tokCapt_star_last hvne
    (fun c hc => charOk_true_iff.mpr ⟨(hv c hc).1, (hv c hc).2⟩)

/-- The names of the fixed routes includeme registers before the resource
loop (base routes; each also has an '_alt' variant). -/
def staticBaseNames : List String :=
  ["legal", "_js", "_raise", "_ping", "robots", "sitemapindex", "sitemap", "unapi", "olac"]

theorem table_find_name {resources : List Res} {rsc : Res}
    (hmem : rsc ∈ resources)
    (hnames : ∀ r ∈ resources, alphaName r.name)
    (hdist : resources.Pairwise (fun a b => a.name ≠ b.name))
    (hnd : ¬ rsc.model = ModelT.Dataset)
    (hstatic : rsc.name ∉ staticBaseNames)
    (hplural : ∀ r' ∈ resources, rsc.name ≠ r'.name ++ "s") :
    findRouteByName (staticRouteDefs ++ (resources.map resourceRouteBlock).flatten)
      rsc.name = some (singularRoute rsc) := by
  have haRsc : alphaName rsc.name := hnames rsc hmem
  have hund : ∀ c ∈ rsc.name.data, c ≠ '_' := fun c hc =>
    (isLowerAlpha_ne (haRsc.2 c hc)).2.2.2.2.1
  have haltne : ∀ x : String, x ++ "_alt" ≠ rsc.name := by
    intro x e
    have hu : '_' ∈ rsc.name.data := by
      rw [← e, String.data_append]
      exact List.mem_append.mpr (Or.inr (by decide))
    exact (hund '_' hu) rfl
  obtain ⟨pre, post, rfl⟩ := List.append_of_mem hmem
  have h1 : staticRouteDefs.find? (fun r => r.name == rsc.name) = none := by
    rw [List.find?_eq_none]
    intro x hx
    fin_cases hx <;> simp only [beq_iff_eq] <;>
      first
        | (intro e; exact hstatic (by rw [← e]; decide))
        | (intro e
           have hu : '_' ∈ rsc.name.data := by rw [← e]; decide
           exact (hund '_' hu) rfl)
  rw [findRouteByName, List.find?_append, h1, Option.none_or]
  have hmapflat : ((pre ++ rsc :: post).map resourceRouteBlock).flatten =
      (pre.map resourceRouteBlock).flatten ++
        (resourceRouteBlock rsc ++ (post.map resourceRouteBlock).flatten) := by
    simp
  rw [hmapflat, List.find?_append]
  have h2 : (pre.map resourceRouteBlock).flatten.find?
      (fun r => r.name == rsc.name) = none := by
    rw [List.find?_eq_none]
    intro rd hrd
    rw [List.mem_flatten] at hrd
    obtain ⟨l, hl, hrdl⟩ := hrd
    rw [List.mem_map] at hl
    obtain ⟨r', hr', rfl⟩ := hl
    have hr'mem : r' ∈ pre ++ rsc :: post := by simp [hr']
    have hnn : r'.name ≠ rsc.name :=
      (List.pairwise_append.mp hdist).2.2 r' hr' rsc (by simp)
    have hpl : r'.name ++ "s" ≠ rsc.name := fun e => hplural r' hr'mem e.symm
    simp only [resourceRouteBlock, List.mem_append] at hrdl
    rcases hrdl with hwi | hds
    · rcases hwi2 : r'.with_index with _ | _
      · rw [hwi2] at hwi; simp at hwi
      · rw [hwi2, if_pos rfl] at hwi
        simp at hwi
        rcases hwi with rfl | rfl
        · simpa using hpl
        · simpa using haltne (r'.name ++ "s")
    · by_cases hm : r'.model = ModelT.Dataset
      · rw [if_pos hm] at hds
        simp at hds
        rcases hds with rfl | rfl
        · simpa using hnn
        · simpa using haltne r'.name
      · rw [if_neg hm] at hds
        simp at hds
        rcases hds with rfl | rfl
        · simpa using hnn
        · simpa using haltne r'.name
  rw [h2, Option.none_or]
  rw [resourceRouteBlock, if_neg hnd, List.append_assoc, List.find?_append]
  have h3 : (if rsc.with_index then
      [(⟨rsc.name ++ "s", "/" ++ (rsc.name ++ "s"), some (rsc.model, "index")⟩ : RouteDef),
       ⟨(rsc.name ++ "s") ++ "_alt", "/" ++ (rsc.name ++ "s") ++ ".\x7bext\x7d",
         some (rsc.model, "index")⟩]
      else []).find? (fun r => r.name == rsc.name) = none := by
    rw [List.find?_eq_none]
    intro rd hrd
    rcases hwi2 : rsc.with_index with _ | _
    · rw [hwi2] at hrd; simp at hrd
    · rw [hwi2, if_pos rfl] at hrd
      simp at hrd
      rcases hrd with rfl | rfl
      · simpa using fun e => @ne_self_append_s rsc.name e.symm
      · simpa using haltne (rsc.name ++ "s")
  rw [h3, Option.none_or, List.cons_append,
    List.find?_cons_of_pos _ (by simp [singularRoute])]
  rfl

/-- An empty Pyramid configuration/registry state. -/
def emptyConfig : Config := ⟨[], [], none, [], [], [], [], [], [], [], [], []⟩

/-- The Dataset entry of RESOURCES (its presence is what includeme's
Dataset special case serves). -/
def dsRes : Res := ⟨"dataset", ModelT.Dataset, "IDataset", false⟩

/-- A stored Dataset row with id "x". -/
def dsRec : Rec := ⟨"x", ModelT.Dataset, "IDataset"⟩

/-- A configuration whose RESOURCES list holds just the Dataset resource. -/
def c3cfg : Config := { emptyConfig with resources := [dsRes] }

/-- A database holding exactly one Dataset row. -/
def c3db : DB := fun m => match m with
  | ModelT.Dataset => [dsRec]
  | _ => []

/-- C3 counterexample: for the registered Dataset resource and its stored
record (whose id "x" matches the id pattern), resource_url produces the
Dataset URL '/', but ctx_for_url on that very URL returns None instead of
the record — the Dataset route '/' matches with an empty (falsy) matchdict,
so the round trip of the claim fails. -/
theorem ctx_for_url_c3_cex :
    dsRec.model = dsRes.model ∧ dsRes ∈ c3cfg.resources ∧
    dbGet c3db dsRes.model dsRec.id = some dsRec ∧
    resource_url (includeme "h" c3cfg) dsRec none = some "http://example.org/" ∧
    ctx_for_url (includeme "h" c3cfg) c3db "http://example.org/" = Except.ok none :=
  ⟨rfl, by decide, rfl, by decide, rfl⟩

/-- C3 (corrected): in an includeme-configured application without
route-pattern overrides, whose resource names are lowercase words, pairwise
distinct, distinct from the fixed route names and not the plural of another
resource, and whose resource interfaces are unambiguous, URL generation and
context resolution round-trip for every record of every non-Dataset resource
whose id matches [^/\.]+ (and needs no URL quoting); and a URL whose path —
also after stripping one leading lowercase path segment — is not first
matched by a resource's singular route resolves to None. -/
theorem ctx_for_url_c3_amended (fh : String) (cfg : Config) (db : DB)
    (hroutes : cfg.routes = []) (hrp : cfg.routePatterns = [])
    (hnames : ∀ r ∈ cfg.resources, alphaName r.name)
    (hdist : cfg.resources.Pairwise (fun a b => a.name ≠ b.name)) :
    (∀ rsc obj, rsc ∈ cfg.resources → ¬ rsc.model = ModelT.Dataset →
       rsc.name ∉ staticBaseNames →
       (∀ r' ∈ cfg.resources, rsc.name ≠ r'.name ++ "s") →
       (∀ r' ∈ cfg.resources, r'.interface = rsc.interface → r' = rsc) →
       obj.interface = rsc.interface →
       goodId obj.id →
       dbGet db rsc.model obj.id = some obj →
       ∃ url, resource_url (includeme fh cfg) obj none = some url ∧
         ctx_for_url (includeme fh cfg) db url = Except.ok (some obj)) ∧
    (∀ url : String,
       (∀ rd m, firstMatch (includeme fh cfg).routes (urlPath url.data) = some (rd, m) →
         ∀ r ∈ cfg.resources, r.name ≠ rd.name) →
       (∀ rd m, firstMatch (includeme fh cfg).routes
           (dropPathSeg (urlPath url.data)) = some (rd, m) →
         ∀ r ∈ cfg.resources, r.name ≠ rd.name) →
       ctx_for_url (includeme fh cfg) db url = Except.ok none) := by
  have hCroutes : (includeme fh cfg).routes =
      staticRouteDefs ++ (cfg.resources.map resourceRouteBlock).flatten := by
    rw [includeme_routes hrp, hroutes, List.nil_append]
  have hCres : (includeme fh cfg).resources = cfg.resources := includeme_resources
  constructor
  · intro rsc obj hmem hnd hstatic hplural hiface hobji hgood hget
    have haRsc : alphaName rsc.name := hnames rsc hmem
    have hvchars : ∀ c ∈ obj.id.data, c ≠ '/' ∧ c ≠ '.' := fun c hc =>
      ⟨(hgood.2 c hc).1, (hgood.2 c hc).2.1⟩
    have hfind : cfg.resources.find? (fun r => r.interface == obj.interface) = some rsc :=
      find?_interface hmem hobji hiface
    have hfr : findRouteByName (includeme fh cfg).routes rsc.name =
        some (singularRoute rsc) := by
      rw [hCroutes]
      exact table_find_name hmem hnames hdist hnd hstatic hplural
    have hgen : genPath (compilePattern (singularRoute rsc).pattern) [("id", obj.id)] =
        some ('/' :: ((rsc.name ++ "s").data ++ '/' :: obj.id.data)) := by
      show genPath (compilePattern ("/" ++ (rsc.name ++ "s") ++ "/\x7bid:[^/\\.]+\x7d"))
        [("id", obj.id)] = _
      rw [compilePattern_litRun (slash_name_brace haRsc), compile_id_tail]
      have e1 : genPath [Tok.lit '/', Tok.star "id" true] [("id", obj.id)] =
          some ('/' :: obj.id.data) := by
        simp [genPath, lookupAssoc]
      rw [genPath_lits, e1]
      have e2 : ("/" ++ (rsc.name ++ "s")).data = '/' :: (rsc.name ++ "s").data := by
        rw [String.data_append]; rfl
      rw [e2]
      simp
    have hurl : resource_url (includeme fh cfg) obj none =
        some ("http://example.org" ++
          String.mk ('/' :: ((rsc.name ++ "s").data ++ '/' :: obj.id.data))) := by
      simp [resource_url, hCres, hfind, route_url, hfr, hgen]
    refine ⟨_, hurl, ?_⟩
    rw [ctx_for_url]
    have hpath : urlPath ("http://example.org" ++
        String.mk ('/' :: ((rsc.name ++ "s").data ++ '/' :: obj.id.data))).data =
        '/' :: ((rsc.name ++ "s").data ++ '/' :: obj.id.data) := by
      apply urlPath_host
      intro c hc
      rcases List.mem_append.mp hc with h | h
      · have hp := plural_chars haRsc c h
        simp [hp.2.2.2.1, hp.2.2.2.2]
      · rcases List.mem_cons.mp h with rfl | h
        · decide
        · have hp := hgood.2 c h
          simp [hp.2.2.1, hp.2.2.2]
    rw [hpath]
    have hfm : firstMatch (includeme fh cfg).routes
        ('/' :: ((rsc.name ++ "s").data ++ '/' :: obj.id.data)) =
        some (singularRoute rsc, [("id", obj.id.data)]) := by
      rw [hCroutes]
      exact table_match hmem hnames hdist hnd
        (fun e => hgood.1 e) hvchars
    rw [hfm]
    show (if captNonempty [("id", obj.id.data)] = true then _ else _) = _
    rw [if_pos (show captNonempty [("id", obj.id.data)] = true from rfl)]
    rw [hCres]
    have hfindn : cfg.resources.find? (fun rs => rs.name == (singularRoute rsc).name) =
        some rsc := find?_name_pairwise hmem hdist
    rw [hfindn]
    show (match lookupAssoc [("id", String.mk obj.id.data)] "id" with
          | some v => Except.ok (dbGet db rsc.model v)
          | none => Except.error PyExc.keyError) = _
    rw [show lookupAssoc [("id", String.mk obj.id.data)] "id" =
        some (String.mk obj.id.data) from rfl]
    show Except.ok (dbGet db rsc.model obj.id) = _
    rw [hget]
  · intro url h1 h2
    rw [ctx_for_url]
    cases e1 : firstMatch (includeme fh cfg).routes (urlPath url.data) with
    | some x =>
      obtain ⟨rd, m⟩ := x
      show (if captNonempty m = true then _ else _) = _
      cases hcne : captNonempty m
      · rw [if_neg (by simp [hcne])]
      · rw [if_pos (by simp [hcne])]
        have hnone : (includeme fh cfg).resources.find?
            (fun rs => rs.name == rd.name) = none := by
          rw [List.find?_eq_none, hCres]
          intro r hr
          simp only [beq_iff_eq]
          exact h1 rd m e1 r hr
        rw [hnone]
    | none =>
      cases e2 : firstMatch (includeme fh cfg).routes (dropPathSeg (urlPath url.data)) with
      | some x =>
        obtain ⟨rd, m⟩ := x
        show (if captNonempty m = true then _ else _) = _
        cases hcne : captNonempty m
        · rw [if_neg (by simp [hcne])]
        · rw [if_pos (by simp [hcne])]
          have hnone : (includeme fh cfg).resources.find?
              (fun rs => rs.name == rd.name) = none := by
            rw [List.find?_eq_none, hCres]
            intro r hr
            simp only [beq_iff_eq]
            exact h2 rd m e2 r hr
          rw [hnone]
      | none =>
        rfl

/-- The language resource used to witness the C3 round trip. -/
def c3wres : Res := ⟨"language", ModelT.Language, "ILanguage", true⟩

/-- A configuration registering just the language resource. -/
def c3wcfg : Config := { emptyConfig with resources := [c3wres] }

/-- A stored language record with id "abc". -/
def c3wobj : Rec := ⟨"abc", ModelT.Language, "ILanguage"⟩

/-- A database holding exactly that language record. -/
def c3wdb : DB := fun m => match m with
  | ModelT.Language => [c3wobj]
  | _ => []

/-- C3 witness: the round trip at a concrete configuration, record and
database. -/
theorem ctx_for_url_c3_witness :
    ∃ url, resource_url (includeme "h" c3wcfg) c3wobj none = some url ∧
      ctx_for_url (includeme "h" c3wcfg) c3wdb url = Except.ok (some c3wobj) :=
  (ctx_for_url_c3_amended "h" c3wcfg c3wdb rfl rfl (by decide) (by decide)).1
    c3wres c3wobj (by decide) (by decide) (by decide) (by decide) (by decide)
    rfl (by decide) (by decide)

/-- C10 (confirmed): hyperlink builds 'HYPERLINK("<url>";"<label>")', with
every double quote of a nonempty label replaced by a single quote; when the
label is None or empty, the url itself is the label, and no quote
replacement is applied to the url in either position. -/
theorem hyperlink_c10 :
    (∀ url l : String, l ≠ "" → hyperlink url (some l) =
      "HYPERLINK(\x22" ++ url ++ "\x22;\x22" ++
        String.mk (l.data.map (fun c => if c = '\x22' then '\x27' else c)) ++ "\x22)") ∧
    (∀ url : String, hyperlink url none =
      "HYPERLINK(\x22" ++ url ++ "\x22;\x22" ++ url ++ "\x22)") ∧
    (∀ url : String, hyperlink url (some "") =
      "HYPERLINK(\x22" ++ url ++ "\x22;\x22" ++ url ++ "\x22)") := by
  refine ⟨?_, ?_, ?_⟩
  · intro url l hl
    simp [hyperlink, replaceDQuote, hl]
  · intro url; rfl
  · intro url; rfl

/-- C10 witness: a concrete label containing a double quote. -/
theorem hyperlink_c10_witness :
    ("a\x22b" : String) ≠ "" ∧
    hyperlink "u" (some "a\x22b") = "HYPERLINK(\x22u\x22;\x22a\x27b\x22)" := by
  refine ⟨by decide, ?_⟩
  rw [hyperlink_c10.1 "u" "a\x22b" (by decide)]
  decide

/-- An adapter class with a nonempty mimetype, for the C6 scenarios. -/
def c6cls : Cls := ⟨"GeoJson", "text/html", ["IA", "IB"]⟩

/-- C6 counterexample: the registration name is passed explicitly as the
empty string, yet the adapter is registered under cls.mimetype — Python's
`name or cls.mimetype` treats the explicit empty string as absent, so
explicitly passed values are not always used exactly. -/
theorem register_adapter_c6_cex :
    register_adapter emptyConfig c6cls "IFrom" (some "ITo") (some "") =
      Except.ok { emptyConfig with adapters := [(c6cls, "IFrom", "ITo", "text/html")] } ∧
    ("text/html" : String) ≠ "" := ⟨rfl, by decide⟩

/-- C6 (corrected): register_adapter registers cls as an adapter from from_
to to_, where to_ defaults to the first interface implemented by cls when
not given, and the name defaults to cls.mimetype when not given — or when
given as the empty (falsy) string; an explicit interface and an explicit
nonempty name are used exactly. -/
theorem register_adapter_c6_amended (cfg : Config) (cls : Cls) (from_ to_ nm : String)
    (i : String) (rest : List String) :
    (nm ≠ "" → register_adapter cfg cls from_ (some to_) (some nm) =
       Except.ok { cfg with adapters := (cls, from_, to_, nm) :: cfg.adapters }) ∧
    (cls.implements = i :: rest →
       register_adapter cfg cls from_ none none =
         Except.ok { cfg with adapters := (cls, from_, i, cls.mimetype) :: cfg.adapters }) ∧
    (register_adapter cfg cls from_ (some to_) (some "") =
       Except.ok { cfg with adapters := (cls, from_, to_, cls.mimetype) :: cfg.adapters }) := by
  refine ⟨?_, ?_, ?_⟩
  · intro h
    simp [register_adapter, h]
  · intro h
    simp [register_adapter, h]
  · simp [register_adapter]

/-- C6 witness: an explicit interface pair and nonempty name are used
exactly, and the defaults fall back as described. -/
theorem register_adapter_c6_witness :
    register_adapter emptyConfig c6cls "IFrom" (some "ITo") (some "text/x") =
      Except.ok { emptyConfig with adapters := [(c6cls, "IFrom", "ITo", "text/x")] } ∧
    register_adapter emptyConfig c6cls "IFrom" none none =
      Except.ok { emptyConfig with adapters := [(c6cls, "IFrom", "IA", "text/html")] } := by
  constructor
  · exact (register_adapter_c6_amended emptyConfig c6cls "IFrom" "ITo" "text/x"
      "IA" ["IB"]).1 (by decide)
  · exact (register_adapter_c6_amended emptyConfig c6cls "IFrom" "ITo" "text/x"
      "IA" ["IB"]).2.1 rfl

/-- A configuration whose settings carry a route_patterns override for the
route name "r". -/
def c4cfg : Config := { emptyConfig with routePatterns := [("r", "/override")] }

/-- C4 counterexample: with a settings['route_patterns'] override for route
"r", add_route_and_view registers "r" under the override pattern, not under
the pattern argument "/p", and the variant follows the override. -/
theorem add_route_and_view_c4_cex :
    (add_route_and_view c4cfg "r" "/p" "v" none none).routes =
      [⟨"r", "/override", none⟩, ⟨"r_alt", "/override.\x7bext\x7d", none⟩] ∧
    ("/override" : String) ≠ "/p" := ⟨by decide, by decide⟩

/-- C4 (corrected): when settings['route_patterns'] has no entry for R,
add_route_and_view registers exactly routes R (pattern P) and R_alt (pattern
P + '.\x7bext\x7d' unless alt_route_pattern is given), attaches the view to both
and passes the factory to both route registrations. -/
theorem add_route_and_view_c4_amended (cfg : Config) (R P V : String)
    (f : Option (ModelT × String)) (alt : Option String)
    (h : lookupAssoc cfg.routePatterns R = none) :
    (add_route_and_view cfg R P V f alt).routes =
      cfg.routes ++ [⟨R, P, f⟩, ⟨R ++ "_alt", alt.getD (P ++ ".\x7bext\x7d"), f⟩] ∧
    (add_route_and_view cfg R P V f alt).views =
      cfg.views ++ [(R, V), (R ++ "_alt", V)] := by
  constructor <;> simp [add_route_and_view, h]

/-- C4 witness: a concrete registration without an override. -/
theorem add_route_and_view_c4_witness :
    (add_route_and_view emptyConfig "r" "/p" "v" (some (ModelT.Language, "rsc")) none).routes =
      [⟨"r", "/p", some (ModelT.Language, "rsc")⟩,
       ⟨"r_alt", "/p.\x7bext\x7d", some (ModelT.Language, "rsc")⟩] := by
  rw [(add_route_and_view_c4_amended emptyConfig "r" "/p" "v"
    (some (ModelT.Language, "rsc")) none rfl).1]
  decide

/-- A configuration whose settings carry a route_patterns override for the
route name "language". -/
def c1cfg : Config := { emptyConfig with routePatterns := [("language", "/custom")] }

/-- C1 counterexample: with a settings['route_patterns'] override for
"language", register_resource registers the singular route under "/custom",
not under '/languages/\x7bid:[^/\.]+\x7d'. -/
theorem register_resource_c1_cex :
    ((register_resource c1cfg "language" ModelT.Language "ILanguage" true).routes.map
      RouteDef.pattern) =
      ["/custom", "/custom.\x7bext\x7d", "/languages", "/languages.\x7bext\x7d"] ∧
    ("/custom" : String) ≠ "/languages/\x7bid:[^/\\.]+\x7d" := ⟨by decide, by decide⟩

/-- C1 (corrected): when settings['route_patterns'] overrides neither name
nor name + 's', register_resource with with_index registers exactly the
singular item route '/<name>s/\x7bid:[^/\.]+\x7d' named name and the plural index
route '/<name>s' named name + 's', each followed by its format-extension
variant; without with_index only the singular pair is registered. -/
theorem register_resource_c1_amended (cfg : Config) (name : String) (model : ModelT)
    (iface : String) (wi : Bool)
    (h1 : lookupAssoc cfg.routePatterns name = none)
    (h2 : lookupAssoc cfg.routePatterns (name ++ "s") = none) :
    (register_resource cfg name model iface wi).routes =
      cfg.routes ++
        ([⟨name, "/" ++ name ++ "s/\x7bid:[^/\\.]+\x7d", some (model, "rsc")⟩,
          ⟨name ++ "_alt", "/" ++ name ++ "s/\x7bid:[^/\\.]+\x7d" ++ ".\x7bext\x7d",
            some (model, "rsc")⟩] ++
         if wi then
           [⟨name ++ "s", "/" ++ name ++ "s", some (model, "index")⟩,
            ⟨(name ++ "s") ++ "_alt", "/" ++ name ++ "s" ++ ".\x7bext\x7d",
              some (model, "index")⟩]
         else []) := by
  cases wi <;>
    simp [register_resource, add_route_and_view, registerAdapterD, register_adapter,
      excelAdapterCls, h1, h2]

/-- C1 witness: a concrete registration with with_index set. -/
theorem register_resource_c1_witness :
    (register_resource emptyConfig "language" ModelT.Language "ILanguage" true).routes =
      [⟨"language", "/languages/\x7bid:[^/\\.]+\x7d", some (ModelT.Language, "rsc")⟩,
       ⟨"language_alt", "/languages/\x7bid:[^/\\.]+\x7d.\x7bext\x7d",
         some (ModelT.Language, "rsc")⟩,
       ⟨"languages", "/languages", some (ModelT.Language, "index")⟩,
       ⟨"languages_alt", "/languages.\x7bext\x7d", some (ModelT.Language, "index")⟩] := by
  rw [register_resource_c1_amended emptyConfig "language" ModelT.Language "ILanguage"
    true rfl rfl]
  decide

/-- Claim-side rendering of C5: the default eager-loading options, defined
only for Contribution and ValueSet, and no options for any other model. -/
def applyDefaultOptions (model : ModelT) (q : Query) : Query :=
  if model = ModelT.Contribution then withOptions q contributionOptions
  else if model = ModelT.ValueSet then withOptions q valueSetOptions
  else q

/-- C5 (confirmed): for any refined_query override, CtxFactoryQuery.__call__
executes, via .one(), exactly the base id-filtered query with the per-model
default options when refined_query returned the identical query, and the
customized query unchanged otherwise (query values carry an object-identity
surrogate, so structural equality of the embedding coincides with Python's
`==` identity comparison of Query objects). -/
theorem ctx_factory_query_c5 (rq : Query → ModelT → Req → Query) (model : ModelT)
    (req : Req) (db : DB) :
    ctxFactoryQueryCall rq model req db =
      match baseQuery model req with
      | Except.error e => Except.error e
      | Except.ok q0 =>
        listOne (queryExec db
          (if rq q0 model req = q0 then applyDefaultOptions model q0
           else rq q0 model req)) := by
  unfold ctxFactoryQueryCall
  cases hb : baseQuery model req with
  | error e => rfl
  | ok q0 =>
    by_cases h : q0 = rq q0 model req
    · simp only [← h, if_pos rfl]
      cases model <;> simp [applyDefaultOptions]
    · simp only [if_neg h, if_neg (fun e : rq q0 model req = q0 => h e.symm)]

/-- C7 (confirmed): includeme sets the default locale name to 'en'; for a
package with a locale directory, register_app adds the package's own
translation directory first and 'clld:locale' second; with no package, only
'clld:locale' is added. -/
theorem localization_c7 :
    (∀ (fh : String) (cfg : Config),
      lookupAssoc (includeme fh cfg).settings "pyramid.default_locale_name" = some "en") ∧
    (∀ (cfg : Config) (p : Pkg), p.hasLocale = true →
      (register_app cfg (some p)).translationDirs =
        cfg.translationDirs ++ [p.name ++ ":locale", "clld:locale"]) ∧
    (∀ cfg : Config,
      (register_app cfg none).translationDirs = cfg.translationDirs ++ ["clld:locale"]) := by
  refine ⟨?_, ?_, ?_⟩
  · intro fh cfg
    unfold includeme
    rw [includemeMaps_fields.2.2.2, foldl_addResource_settings, addStaticRoutes_settings]
    show lookupAssoc (("clld.favicon_hash", fh) ::
      faviconSettings (("pyramid.default_locale_name", "en") :: cfg.settings))
      "pyramid.default_locale_name" = some "en"
    rw [lookupAssoc, if_neg (by decide)]
    unfold faviconSettings
    split
    · rw [lookupAssoc, if_neg (by decide), lookupAssoc, if_pos rfl]
    · rw [lookupAssoc, if_pos rfl]
  · intro cfg p h
    simp [register_app, h, apply_ite Config.translationDirs]
  · intro cfg
    rfl

/-- C7 witness: a concrete package with a locale directory. -/
theorem localization_c7_witness :
    (register_app emptyConfig
      (some ⟨"wals3", false, false, true, false, false, []⟩)).translationDirs =
      ["wals3:locale", "clld:locale"] := by
  rw [localization_c7.2.1 emptyConfig ⟨"wals3", false, false, true, false, false, []⟩ rfl]
  decide

theorem isSuffixOf_append {l1 l2 : List Char} : l2.isSuffixOf (l1 ++ l2) = true := by
  show (l2.reverse.isPrefixOf (l1 ++ l2).reverse) = true
  rw [List.reverse_append]
  exact List.isPrefixOf_iff_prefix.mpr (List.prefix_append _ _)

theorem strEndsWith_append_alt (s : String) : strEndsWith (s ++ "_alt") "_alt" = true := by
  unfold strEndsWith
  rw [String.data_append]
  exact isSuffixOf_append

theorem append_alt_inj {s t : String} (h : s ++ "_alt" = t ++ "_alt") : s = t := by
  have h2 := congrArg String.data h
  rw [String.data_append, String.data_append] at h2
  exact congrArg String.mk (List.append_cancel_right h2)

theorem not_alt_ne {n : String} (h : strEndsWith n "_alt" = false) (s : String) :
    n ≠ s ++ "_alt" := by
  intro e
  rw [e, strEndsWith_append_alt] at h
  simp at h

/-- The registry invariant C8 speaks about: every class registered under an
interface with a name not ending in '_alt' is also registered under the same
interface with the '_alt' variant of the name, bound to the same class. -/
def StrongAltInv (utils : List (String × String × Cls)) : Prop :=
  ∀ i n c, strEndsWith n "_alt" = false → lookupUtil utils i n = some c →
    lookupUtil utils i (n ++ "_alt") = some c

/-- Two distinct datatable classes used in the C8 scenarios. -/
def dtCls1 : Cls := ⟨"Languages", "", []⟩

/-- A second, distinct datatable class. -/
def dtCls2 : Cls := ⟨"CustomLanguages", "", []⟩

/-- The registry after registering dtCls1 under "language". -/
def c8cfg1 : Config := register_cls "IDataTable" emptyConfig "language" dtCls1

/-- The registry after additionally registering dtCls2 under
"language_alt". -/
def c8cfg2 : Config := register_cls "IDataTable" c8cfg1 "language_alt" dtCls2

/-- C8 counterexample: registering dtCls2 under the name "language_alt"
(already ending in '_alt') breaks the invariant that "language" and
"language_alt" resolve to the same class — the invariant held before that
registration and fails after it, so not every registration preserves it. -/
theorem register_cls_c8_cex :
    StrongAltInv c8cfg1.utilities ∧ ¬ StrongAltInv c8cfg2.utilities := by
  constructor
  · intro i n c hn hl
    have hu : c8cfg1.utilities =
        [("IDataTable", "language_alt", dtCls1), ("IDataTable", "language", dtCls1)] := rfl
    rw [hu] at hl ⊢
    rw [lookupUtil] at hl
    by_cases h1 : "IDataTable" = i ∧ "language_alt" = n
    · exfalso
      rw [← h1.2] at hn
      exact absurd hn (by decide)
    · rw [if_neg h1, lookupUtil] at hl
      by_cases h2 : "IDataTable" = i ∧ "language" = n
      · rw [if_pos h2] at hl
        rw [lookupUtil, if_pos ⟨h2.1, by rw [← h2.2]; decide⟩]
        exact hl
      · rw [if_neg h2, lookupUtil] at hl
        exact absurd hl (by simp)
  · intro h
    have h1 : lookupUtil c8cfg2.utilities "IDataTable" "language" = some dtCls1 := by decide
    have h2 := h "IDataTable" "language" dtCls1 (by decide) h1
    have h3 : lookupUtil c8cfg2.utilities "IDataTable" ("language" ++ "_alt") =
        some dtCls2 := by decide
    rw [h3] at h2
    exact absurd (Option.some.inj h2) (by decide)

/-- C8 (corrected): a register_datatable/register_map registration under a
name not ending in '_alt' binds both the name and its '_alt' variant to the
class and preserves the same-class invariant; a registration whose name
already ends in '_alt' is made exactly once (and can rebind the variant
name, so it need not preserve the same-class invariant). -/
theorem register_cls_c8_amended (interface route : String) (cls : Cls) (cfg : Config) :
    (strEndsWith route "_alt" = false → StrongAltInv cfg.utilities →
       StrongAltInv (register_cls interface cfg route cls).utilities) ∧
    (strEndsWith route "_alt" = true →
       (register_cls interface cfg route cls).utilities =
         (interface, route, cls) :: cfg.utilities) := by
  constructor
  · intro hna hinv i n c hn hl
    have hu : (register_cls interface cfg route cls).utilities =
        (interface, route ++ "_alt", cls) :: (interface, route, cls) :: cfg.utilities := by
      unfold register_cls
      simp [hna]
    rw [hu] at hl ⊢
    rw [lookupUtil] at hl
    by_cases h1 : interface = i ∧ route ++ "_alt" = n
    · exfalso
      have h5 := strEndsWith_append_alt route
      rw [h1.2] at h5
      rw [h5] at hn
      simp at hn
    · rw [if_neg h1, lookupUtil] at hl
      by_cases h2 : interface = i ∧ route = n
      · rw [if_pos h2] at hl
        rw [lookupUtil, if_pos ⟨h2.1, by rw [h2.2]⟩]
        exact hl
      · rw [if_neg h2] at hl
        have h3 := hinv i n c hn hl
        rw [lookupUtil, if_neg (fun e => h2 ⟨e.1, append_alt_inj e.2⟩),
          lookupUtil, if_neg (fun e => (not_alt_ne hna n) e.2)]
        exact h3
  · intro ha
    unfold register_cls
    simp [ha]

/-- C8 witness: a non-'_alt' registration on an empty registry preserves the
invariant. -/
theorem register_cls_c8_witness :
    StrongAltInv (register_cls "IDataTable" emptyConfig "language" dtCls1).utilities :=
  (register_cls_c8_amended "IDataTable" "language" dtCls1 emptyConfig).1 (by decide)
    (fun i n c _ hl => by simp [emptyConfig, lookupUtil] at hl)

theorem ctxFactoryQueryCall_default {model : ModelT} {req : Req} {db : DB} {i : String}
    (hid : lookupAssoc req.matchdict "id" = some i) :
    ctxFactoryQueryCall defaultRefinedQuery model req db =
      listOne ((db model).filter (fun r => r.id == i)) := by
  unfold ctxFactoryQueryCall baseQuery
  rw [hid]
  show listOne (queryExec db _) = _
  simp only [defaultRefinedQuery, if_true]
  cases model <;> simp [queryExec, withOptions]

/-- The Dataset row stored for the C2 counterexample, with id "x". -/
def c2dsRec : Rec := ⟨"x", ModelT.Dataset, "IDataset"⟩

/-- A database holding exactly one Dataset row with id "x". -/
def c2db : DB := fun m => match m with
  | ModelT.Dataset => [c2dsRec]
  | _ => []

/-- A singular-resource request whose matchdict id is "y". -/
def c2req : Req := ⟨[("id", "y")], "dataset"⟩

/-- C2 counterexample: a type_ == 'rsc' request for the Dataset model with
matchdict id "y" returns the stored Dataset row whose id is "x" ≠ "y" (and
raises nothing) — the Dataset branch of ctx_factory ignores the matchdict,
so not every singular request returns the instance with the matchdict's
id. -/
theorem ctx_factory_c2_cex :
    ctx_factory emptyConfig (ctxFactoryQueryCall defaultRefinedQuery) (fun _ => [])
      c2db ModelT.Dataset "rsc" c2req = Except.ok (Ctx.rsc c2dsRec []) ∧
    lookupAssoc c2req.matchdict "id" = some "y" ∧ c2dsRec.id ≠ "y" :=
  ⟨rfl, rfl, by decide⟩

/-- C2 (corrected): for every non-Dataset model, a type_ == 'rsc' request
through the default CtxFactoryQuery returns the unique instance whose id
equals the matchdict's id, with metadata adapters attached, raising
HTTPNotFound exactly when the id-filtered query has no row (several rows
raise MultipleResultsFound, not HTTPNotFound); a type_ == 'index' request
returns the datatable registered under the matched route name, instantiated
with the request and model, and never raises HTTPNotFound (an unregistered
name raises ComponentLookupError). -/
theorem ctx_factory_c2_amended (cfg : Config) (db : DB) (metaOf : Rec → List String)
    (model : ModelT) (req : Req) (i : String)
    (hm : ¬ model = ModelT.Dataset)
    (hid : lookupAssoc req.matchdict "id" = some i) :
    (ctx_factory cfg (ctxFactoryQueryCall defaultRefinedQuery) metaOf db model "rsc" req =
       match (db model).filter (fun r => r.id == i) with
       | [] => Except.error PyExc.httpNotFound
       | [r] => Except.ok (Ctx.rsc r (metaOf r))
       | _ :: _ :: _ => Except.error PyExc.multipleResultsFound) ∧
    (ctx_factory cfg (ctxFactoryQueryCall defaultRefinedQuery) metaOf db model "rsc" req =
        Except.error PyExc.httpNotFound ↔
      (db model).filter (fun r => r.id == i) = []) ∧
    (ctx_factory cfg (ctxFactoryQueryCall defaultRefinedQuery) metaOf db model "index" req =
       match lookupUtil cfg.utilities "IDataTable" req.matchedRouteName with
       | some cls => Except.ok (Ctx.dt cls req model)
       | none => Except.error PyExc.componentLookupError) ∧
    (ctx_factory cfg (ctxFactoryQueryCall defaultRefinedQuery) metaOf db model "index" req ≠
       Except.error PyExc.httpNotFound) := by
  have h1 : ctx_factory cfg (ctxFactoryQueryCall defaultRefinedQuery) metaOf db model
      "rsc" req =
      match (db model).filter (fun r => r.id == i) with
      | [] => Except.error PyExc.httpNotFound
      | [r] => Except.ok (Ctx.rsc r (metaOf r))
      | _ :: _ :: _ => Except.error PyExc.multipleResultsFound := by
    unfold ctx_factory
    rw [if_neg (by decide), if_neg hm, ctxFactoryQueryCall_default hid]
    cases hf : (db model).filter (fun r => r.id == i) with
    | nil => rfl
    | cons r rest =>
      cases rest with
      | nil => rfl
      | cons r2 rest2 => rfl
  have h3 : ctx_factory cfg (ctxFactoryQueryCall defaultRefinedQuery) metaOf db model
      "index" req =
      match lookupUtil cfg.utilities "IDataTable" req.matchedRouteName with
      | some cls => Except.ok (Ctx.dt cls req model)
      | none => Except.error PyExc.componentLookupError := by
    unfold ctx_factory
    rw [if_pos rfl]
  refine ⟨h1, ?_, h3, ?_⟩
  · rw [h1]
    cases hf : (db model).filter (fun r => r.id == i) with
    | nil => simp
    | cons r rest =>
      cases rest with
      | nil => simp
      | cons r2 rest2 => simp
  · rw [h3]
    cases lookupUtil cfg.utilities "IDataTable" req.matchedRouteName <;> simp

/-- The language row used to witness C2, with id "abc". -/
def c2wrec : Rec := ⟨"abc", ModelT.Language, "ILanguage"⟩

/-- A database holding exactly that language row. -/
def c2wdb : DB := fun m => match m with
  | ModelT.Language => [c2wrec]
  | _ => []

/-- A request whose matchdict id is "abc". -/
def c2wreq : Req := ⟨[("id", "abc")], "language"⟩

/-- C2 witness: the rsc branch at a concrete non-Dataset model, database and
request. -/
theorem ctx_factory_c2_witness :
    ctx_factory emptyConfig (ctxFactoryQueryCall defaultRefinedQuery) (fun _ => ["md"])
      c2wdb ModelT.Language "rsc" c2wreq = Except.ok (Ctx.rsc c2wrec ["md"]) := by
  rw [(ctx_factory_c2_amended emptyConfig c2wdb (fun _ => ["md"]) ModelT.Language
    c2wreq "abc" (by decide) rfl).1]
  rfl

/-- A configuration with the Dataset resource and a route_patterns override
for the route "dataset". -/
def c9cfg : Config :=
  { emptyConfig with resources := [dsRes], routePatterns := [("dataset", "/x")] }

/-- C9 counterexample: with a settings['route_patterns'] override for
"dataset", includeme registers the Dataset singular route under "/x", so its
pattern is not '/'. -/
theorem includeme_c9_cex :
    (⟨"dataset", "/x", some (ModelT.Dataset, "rsc")⟩ : RouteDef) ∈
      (includeme "h" c9cfg).routes ∧
    (∀ rd ∈ (includeme "h" c9cfg).routes, rd.name = "dataset" → rd.pattern ≠ "/") := by
  decide

/-- C9 (corrected): absent route_patterns overrides, and for resources with
lowercase-word names, includeme special-cases the Dataset resource: its
singular route has pattern '/' with alternate '/void.\x7bext\x7d', every other
resource's singular route has pattern '/<plural>/\x7bid:[^/\.]+\x7d' whose
matched id segment can contain neither '/' nor '.'; and ctx_factory fetches
the Dataset context as the unique Dataset row, ignoring the matchdict
entirely. -/
theorem includeme_c9_amended (fh : String) (cfg : Config)
    (hrp : cfg.routePatterns = [])
    (hnames : ∀ r' ∈ cfg.resources, alphaName r'.name)
    (r : Res) (hr : r ∈ cfg.resources) :
    (r.model = ModelT.Dataset →
       (⟨r.name, "/", some (r.model, "rsc")⟩ : RouteDef) ∈ (includeme fh cfg).routes ∧
       (⟨r.name ++ "_alt", "/void.\x7bext\x7d", some (r.model, "rsc")⟩ : RouteDef) ∈
         (includeme fh cfg).routes) ∧
    (¬ r.model = ModelT.Dataset →
       singularRoute r ∈ (includeme fh cfg).routes ∧
       (⟨r.name ++ "_alt", "/" ++ (r.name ++ "s") ++ "/\x7bid:[^/\\.]+\x7d" ++ ".\x7bext\x7d",
          some (r.model, "rsc")⟩ : RouteDef) ∈ (includeme fh cfg).routes ∧
       (∀ (p v : List Char) (m : List (String × List Char)),
          tokCapt (compilePattern (singularRoute r).pattern) p = some m →
          lookupAssoc m "id" = some v → ∀ c ∈ v, c ≠ '/' ∧ c ≠ '.')) ∧
    (∀ (cfq : ModelT → Req → DB → Except PyExc Rec) (metaOf : Rec → List String)
       (db : DB) (req : Req),
       ctx_factory (includeme fh cfg) cfq metaOf db ModelT.Dataset "rsc" req =
         match listOne (db ModelT.Dataset) with
         | Except.ok rr => Except.ok (Ctx.rsc rr (metaOf rr))
         | Except.error PyExc.noResultFound => Except.error PyExc.httpNotFound
         | Except.error e => Except.error e) := by
  have hblock : ∀ rd ∈ resourceRouteBlock r, rd ∈ (includeme fh cfg).routes := by
    intro rd hrd
    rw [includeme_routes hrp, List.append_assoc]
    refine List.mem_append.mpr (Or.inr (List.mem_append.mpr (Or.inr ?_)))
    rw [List.mem_flatten]
    exact ⟨resourceRouteBlock r, List.mem_map.mpr ⟨r, hr, rfl⟩, hrd⟩
  refine ⟨?_, ?_, ?_⟩
  · intro hm
    constructor
    · apply hblock
      rw [resourceRouteBlock, if_pos hm]
      exact List.mem_append.mpr (Or.inr (by simp))
    · apply hblock
      rw [resourceRouteBlock, if_pos hm]
      exact List.mem_append.mpr (Or.inr (by simp))
  · intro hm
    have haR : alphaName r.name := hnames r hr
    refine ⟨?_, ?_, ?_⟩
    · apply hblock
      rw [resourceRouteBlock, if_neg hm]
      exact List.mem_append.mpr (Or.inr (by simp [singularRoute]))
    · apply hblock
      rw [resourceRouteBlock, if_neg hm]
      exact List.mem_append.mpr (Or.inr (by simp))
    · intro p v m htc hlk c hc
      rw [show (singularRoute r).pattern =
          "/" ++ (r.name ++ "s") ++ "/\x7bid:[^/\\.]+\x7d" from rfl] at htc
      rw [compilePattern_litRun (slash_name_brace haR), compile_id_tail] at htc
      have e2 : ("/" ++ (r.name ++ "s")).data.map Tok.lit ++
          [Tok.lit '/', Tok.star "id" true] =
          (("/" ++ (r.name ++ "s")).data ++ ['/']).map Tok.lit ++ [Tok.star "id" true] := by
        simp
      rw [e2] at htc
      obtain ⟨cs', _, hstar⟩ := tokCapt_lits_inv htc
      obtain ⟨rfl, _, hok⟩ := tokCapt_star_last_inv hstar
      have hv : v = cs' := by
        rw [lookupAssoc] at hlk
        simp at hlk
        exact hlk.symm
      subst hv
      exact charOk_true_iff.mp (hok c hc)
  · intro cfq metaOf db req
    unfold ctx_factory
    rw [if_neg (by decide), if_pos rfl]

/-- The language resource used to witness C9. -/
def c9wres : Res := ⟨"language", ModelT.Language, "ILanguage", true⟩

/-- A configuration with the Dataset and language resources. -/
def c9wcfg : Config := { emptyConfig with resources := [dsRes, c9wres] }

/-- C9 witness: the Dataset and non-Dataset route patterns at a concrete
configuration. -/
theorem includeme_c9_witness :
    (⟨"dataset", "/", some (ModelT.Dataset, "rsc")⟩ : RouteDef) ∈
      (includeme "h" c9wcfg).routes ∧
    singularRoute c9wres ∈ (includeme "h" c9wcfg).routes :=
  ⟨((includeme_c9_amended "h" c9wcfg rfl (by decide) dsRes (by decide)).1 rfl).1,
   ((includeme_c9_amended "h" c9wcfg rfl (by decide) c9wres (by decide)).2.1
     (by decide)).1⟩
